import Mathlib

/-!
# Verification development for the gaming-purchases ingestion service

Shallow embedding of `starter/retry.go` (the generic retry executor, its
backoff computation and its error classifier) and of the record decoder and
stream ingestor that the test-suite exercises, followed by the theorems
settling the specification's claims about them.

Conventions of the embedding

* Go `int`, `int64` and `time.Duration` values are mathematical integers;
  every arithmetic operation that can leave the 64-bit range is followed by
  `wrap64`, the two's-complement reduction Go performs.
* A Go `error` is a value of `GoError`; the `nil` error is `Option.none`.
* A function that can panic returns `Option`, `none` being the panic.
* What the program reads from its environment (the state of the context at
  each `select`, the results of the operation being retried, the raw output of
  the random generator) is an explicit argument.
-/

namespace Gotest

/-! ## Errors -/

/-- The four message shapes `Retry` formats, each with the integer it prints. -/
inductive RetryMsg where
  /-- The text "attempts must be > 0, got %d". -/
  | attemptsMustBePositive (got : Int)
  /-- The text "context cancelled after %d attempts: %w". -/
  | cancelledAfter (count : Int)
  /-- The text "context cancelled during backoff after attempt %d: %w". -/
  | cancelledDuringBackoff (attempt : Int)
  /-- The text "all %d attempts failed, last error: %w". -/
  | allFailed (attempts : Int)
  /-- Any other formatted text, e.g. the one `enrichPurchase` produces. -/
  | other (text : String)
  deriving DecidableEq, Repr

/-- Go error values: those this program builds, and the values of foreign
types a store or an operation may hand to it. A term stands for one value:
for the pointers that `errors.New` and `fmt.Errorf` return, equal terms are the
same pointer (values built by separate calls with equal contents are not told
apart; no theorem compares two such values). -/
inductive GoError where
  /-- The value `context.Canceled`. -/
  | canceled
  /-- The value `context.DeadlineExceeded`. -/
  | deadlineExceeded
  /-- An `errors.New` value such as `ErrNotFound`, identified by its text. -/
  | sentinel (text : String)
  /-- The struct `RetryableError{Err: inner}`. -/
  | retryable (inner : GoError)
  /-- The result of `fmt.Errorf` without a wrapped operand. -/
  | errorf (msg : RetryMsg)
  /-- The result of `fmt.Errorf` with one `%w` operand. -/
  | wrapf (msg : RetryMsg) (inner : GoError)
  /-- An error whose dynamic type is not comparable (a struct with a slice
  field, say) and has neither an `Unwrap` nor an `Is` method. -/
  | uncomparable (text : String)
  deriving DecidableEq, Repr

/-- The sentinel `ErrBadInput` of `store.go`. -/
def ErrBadInput : GoError := .sentinel "bad input"

/-- The sentinel `ErrNotFound` of `store.go`. -/
def ErrNotFound : GoError := .sentinel "not found"

/-- The sentinel `ErrInvalidFormat` of `store.go`. -/
def ErrInvalidFormat : GoError := .sentinel "invalid format"

/-- The method `Unwrap` where the error has one: `RetryableError.Unwrap` returns
its `Err` field and the value built by `fmt.Errorf` with `%w` returns the operand. -/
def GoError.unwrap : GoError → Option GoError
  | .retryable inner => some inner
  | .wrapf _ inner => some inner
  | _ => none

/-- Whether the comparison of the value with itself by Go's `==` gives true:
it does for a pointer and for a comparable struct whose fields do; for a value
of a type that is not comparable there is no such comparison (`errors.Is`
skips it, `==` itself panics), and a RetryableError holding such a value
panics when compared with itself. -/
def GoError.selfEqual : GoError → Bool
  | .uncomparable _ => false
  | .retryable inner => inner.selfEqual
  | _ => true

/-- The library function `errors.Is`: walk the `Unwrap` chain and compare each
link with the target by `==`. A link matches when it is the target and the
target equals itself; a target that is not comparable is never compared, so
nothing matches it. Where the comparison of a RetryableError would panic the
answer given is false. -/
def errorsIs : GoError → GoError → Bool
  | .retryable inner, target =>
      if GoError.retryable inner = target ∧ target.selfEqual = true then true
      else errorsIs inner target
  | .wrapf msg inner, target =>
      if GoError.wrapf msg inner = target then true else errorsIs inner target
  | err, target => decide (err = target) && target.selfEqual

/-- The library function `errors.As` with a target of type `*RetryableError`:
walk the `Unwrap` chain until a link has dynamic type `RetryableError`. -/
def errorsAsRetryable : GoError → Bool
  | .retryable _ => true
  | .wrapf _ inner => errorsAsRetryable inner
  | _ => false

/-- `fmt.Errorf` with a `%w` operand that may be the nil error: with a nil
operand the result unwraps to nothing. -/
def fmtErrorfW (msg : RetryMsg) : Option GoError → GoError
  | some inner => .wrapf msg inner
  | none => .errorf msg

/-- IsRetryable of `retry.go`, lines 106-125. -/
def IsRetryable (err : GoError) : Bool :=
  if errorsAsRetryable err then
    true
  else if errorsIs err .canceled || errorsIs err .deadlineExceeded then
    false
  else
    false

/-! ## 64-bit arithmetic and the backoff computation -/

/-- Two's-complement reduction of an integer to the `int64` range. -/
def wrap64 (x : Int) : Int := (x + 2 ^ 63) % 2 ^ 64 - 2 ^ 63

/-- The conversion `uint(x)` of a Go `int` on a 64-bit platform. -/
def toUint (x : Int) : Nat := (x % 2 ^ 64).toNat

/-- The shift `time.Duration(1 << s)` for an unsigned count `s`: counts of 64
and more shift every bit out. -/
def shiftLeftOne (s : Nat) : Int :=
  if 64 ≤ s then 0 else wrap64 (2 ^ s)

/-- The library function `rand.Int63n`: it panics unless `n` is positive and
otherwise returns a number in `[0, n)`; `raw` is the generator's raw output. -/
def Int63n (n : Int) (raw : Nat) : Option Int :=
  if n ≤ 0 then none else some (Int.ofNat (raw % n.toNat))

/-- One second as a `time.Duration` (nanoseconds). -/
def Second : Int := 1000000000

/-- One millisecond as a `time.Duration` (nanoseconds). -/
def Millisecond : Int := 1000000

/-- The value `exponential` of `calculateBackoffWithJitter`, line 75. -/
def exponentialOf (base attempt : Int) : Int :=
  wrap64 (base * shiftLeftOne (toUint (attempt - 1)))

/-- calculateBackoffWithJitter of `retry.go`, lines 70-90; `raw1` and `raw2`
are the generator's outputs for the two draws, `none` is a panic. -/
def calculateBackoffWithJitter (base attempt : Int) (raw1 raw2 : Nat) : Option Int :=
  let exponential := exponentialOf base attempt
  match Int63n (Int.tdiv exponential 2) raw1 with
  | none => none
  | some j1 =>
    match Int63n (Int.tdiv exponential 4) raw2 with
    | none => none
    | some j2 =>
      let jitter := wrap64 (j1 - j2)
      let result := wrap64 (exponential + jitter)
      let maxBackoff := 30 * Second
      some (if result > maxBackoff then maxBackoff else result)

/-! ## The retry executor -/

/-- Everything `Retry` observes from outside, indexed by the attempt number
(from 1). -/
structure RetryEnv (T : Type) where
  /-- The value `ctx.Err()` reports once the context is done: for the contexts
  of the standard library `context.Canceled` or `context.DeadlineExceeded`. -/
  ctxErr : GoError
  /-- Whether `ctx.Done()` is ready at the `select` before attempt `i`. -/
  doneBefore : Nat → Bool
  /-- Whether the `select` of the backoff sleep after attempt `i` takes the
  `ctx.Done()` branch rather than the timer branch. -/
  doneDuringBackoff : Nat → Bool
  /-- What the `i`-th invocation of the operation returns. -/
  fn : Nat → T × Option GoError
  /-- The generator's raw outputs for the two draws of the backoff after attempt `i`. -/
  draws : Nat → Nat × Nat
  /-- The error of the context is a value that equals itself. -/
  ctxErrEqual : ctxErr.selfEqual = true

/-- How a call ends: it returns its pair of results, or it panics. -/
inductive Outcome (T : Type) where
  | returned (value : T) (err : Option GoError)
  | panicked
  deriving DecidableEq, Repr

/-- The result of running `Retry`: how it ended and how many times it invoked
the operation. -/
structure RetryRun (T : Type) where
  outcome : Outcome T
  calls : Nat
  deriving DecidableEq, Repr

/-- The test of line 48: the operation's error is a cancellation. -/
def isCancellation (err : GoError) : Bool :=
  errorsIs err .canceled || errorsIs err .deadlineExceeded

/-- The final statement of `Retry`, line 66, reached when the loop ends. -/
def retryExhausted {T : Type} (zero : T) (attempts : Int) (lastErr : Option GoError)
    (calls : Nat) : RetryRun T :=
  ⟨.returned zero (some (fmtErrorfW (.allFailed attempts) lastErr)), calls⟩

/-- The loop of `Retry`, lines 27-64, from the loop test of iteration `attempt`
on; `calls` counts the invocations made so far and `fuel` bounds the number of
iterations (`none` when it runs out). -/
def retryLoop {T : Type} (zero : T) (attempts base : Int) (env : RetryEnv T) :
    Nat → Int → Option GoError → Nat → Option (RetryRun T)
  | 0, _, _, _ => none
  | fuel + 1, attempt, lastErr, calls =>
    if attempt ≤ attempts then
      if env.doneBefore attempt.toNat then
        some ⟨.returned zero (some (.wrapf (.cancelledAfter (attempt - 1)) env.ctxErr)), calls⟩
      else
        match env.fn (calls + 1) with
        | (result, none) => some ⟨.returned result none, calls + 1⟩
        | (_, some err) =>
          if attempt = attempts then
            some (retryExhausted zero attempts (some err) (calls + 1))
          else if isCancellation err then
            some (retryExhausted zero attempts (some err) (calls + 1))
          else
            match calculateBackoffWithJitter base attempt
                (env.draws attempt.toNat).1 (env.draws attempt.toNat).2 with
            | none => some ⟨.panicked, calls + 1⟩
            | some _ =>
              if env.doneDuringBackoff attempt.toNat then
                some ⟨.returned zero
                  (some (.wrapf (.cancelledDuringBackoff attempt) env.ctxErr)), calls + 1⟩
              else
                retryLoop zero attempts base env fuel (attempt + 1) (some err) (calls + 1)
    else
      some (retryExhausted zero attempts lastErr calls)

/-- Retry of `retry.go`, lines 13-67. The loop runs at most `attempts`
iterations and one more loop test, which is the fuel given. -/
def Retry {T : Type} (zero : T) (env : RetryEnv T) (attempts base : Int) :
    Option (RetryRun T) :=
  if attempts ≤ 0 then
    some ⟨.returned zero (some (.errorf (.attemptsMustBePositive attempts))), 0⟩
  else
    retryLoop zero attempts base env (attempts.toNat + 1) 1 none 0

/-- A context that is never cancelled, an operation given by `fn`, and the
generator outputs `draws`. -/
def liveEnv {T : Type} (fn : Nat → T × Option GoError) (draws : Nat → Nat × Nat) :
    RetryEnv T :=
  ⟨.canceled, fun _ => false, fun _ => false, fn, draws, rfl⟩

/-- The attempt count an error of `Retry` states, when it states one. -/
def statedAttempts : GoError → Option Int
  | .wrapf (.cancelledAfter n) _ => some n
  | .wrapf (.cancelledDuringBackoff n) _ => some n
  | .wrapf (.allFailed n) _ => some n
  | .errorf (.allFailed n) => some n
  | _ => none

/-- The error kept in `lastErr` after `k` failed invocations. -/
def lastErrAfter {T : Type} (env : RetryEnv T) (k : Nat) : Option GoError :=
  if k = 0 then none else (env.fn k).2

/-- The condition under which attempt `i` fails and is followed by a full
backoff sleep: the context is live before it, the operation fails with an
error that is not a cancellation, the backoff is computed and the timer fires. -/
def failsAndSleeps {T : Type} (env : RetryEnv T) (base : Int) (i : Nat) : Prop :=
  env.doneBefore i = false ∧
  (∃ result err, env.fn i = (result, some err) ∧ isCancellation err = false) ∧
  (calculateBackoffWithJitter base i (env.draws i).1 (env.draws i).2).isSome = true ∧
  env.doneDuringBackoff i = false

/-- A transient storage failure marked for retry: a RetryableError around a
connection error. -/
def transientErr : GoError := .retryable (.sentinel "connection refused")

/-- An operation that fails with `transientErr` on its first `k` invocations
and returns 42 afterwards. -/
def failsThenSucceeds (k : Nat) (i : Nat) : Nat × Option GoError :=
  if i ≤ k then (0, some transientErr) else (42, none)

/-- An operation that fails with `err` on every invocation. -/
def alwaysFails (err : GoError) (_ : Nat) : Nat × Option GoError := (0, some err)

/-- The random generator returning zero at every draw. -/
def zeroDraws (_ : Nat) : Nat × Nat := (0, 0)

/-- An environment whose context is already cancelled at the first check. -/
def cancelledEnv : RetryEnv Nat :=
  ⟨.canceled, fun _ => true, fun _ => true, alwaysFails ErrNotFound, zeroDraws, rfl⟩

/-- An environment whose context is found cancelled during the backoff sleep
after attempt 2, the operation failing with `ErrNotFound` every time. -/
def cancelledInSecondBackoffEnv : RetryEnv Nat :=
  ⟨.deadlineExceeded, fun _ => false, fun i => decide (i = 2), alwaysFails ErrNotFound, zeroDraws,
    rfl⟩

/-! ## Records (`store.go`) -/

/-- PurchaseInput of `store.go`, lines 36-48. -/
structure PurchaseInput where
  TransactionID : String
  PlayerID : String
  PlayerUsername : String
  GameTitle : String
  ItemType : String
  Genre : String
  Platform : String
  AmountCents : Int
  Currency : String
  PlayerLevel : Int
  CreatedAt : String
  deriving DecidableEq, Repr

/-- Purchase of `store.go`, lines 12-26; a `time.Time` is its Unix time. -/
structure Purchase where
  ID : Int
  TransactionID : String
  PlayerID : String
  PlayerUsername : String
  GameTitle : String
  ItemType : String
  Genre : String
  Platform : String
  AmountCents : Int
  Currency : String
  PlayerLevel : Int
  CreatedAt : Int
  Enriched : Bool
  deriving DecidableEq, Repr

/-- The library calls the decoder relies on: `json.Unmarshal` into a
PurchaseInput and `time.Parse(time.RFC3339, s)`, which is the whole body of
`parseTimestamp` (`store.go`, lines 97-101). -/
structure Library where
  unmarshal : String → Option PurchaseInput
  parseTimestamp : String → Option Int

/-! ## Record decoder and stream ingestor

The file defining `ValidatePurchaseInput` and `StreamNDJSON` is not among the
sources; only their tests and callers are. Both are modelled from the
specification, sections 3, 4.1 and 4.2. -/

/-- The closed set of item categories (specification, section 3). -/
def itemTypes : List String := ["game", "dlc", "cosmetic", "currency", "season_pass"]

/-- The closed set of platforms (specification, section 3). -/
def platforms : List String := ["steam", "epic", "xbox", "playstation", "nintendo", "mobile"]

/-- The field a validation error names, in declaration order. -/
inductive FieldViolation where
  | transactionID
  | playerID
  | playerUsername
  | gameTitle
  | itemType
  | platform
  | amountCents
  | playerLevel
  | createdAt
  deriving DecidableEq, Repr

/-- Modelled from the spec: `ValidatePurchaseInput`, whose defining file is
missing. Section 4.1: validation runs field by field in declaration order
(transaction id, player id, username, game title, item type, platform, amount,
player level, timestamp) and reports the first failing constraint; `none` is
the nil error. -/
def ValidatePurchaseInput (lib : Library) (input : PurchaseInput) : Option FieldViolation :=
  if input.TransactionID = "" then some .transactionID
  else if input.PlayerID = "" then some .playerID
  else if input.PlayerUsername = "" then some .playerUsername
  else if input.GameTitle = "" then some .gameTitle
  else if ¬ input.ItemType ∈ itemTypes then some .itemType
  else if ¬ input.Platform ∈ platforms then some .platform
  else if input.AmountCents < 0 then some .amountCents
  else if input.PlayerLevel < 1 ∨ input.PlayerLevel > 100 then some .playerLevel
  else if (lib.parseTimestamp input.CreatedAt).isNone then some .createdAt
  else none

/-- The domain constraints of section 3, one per validated field, in the
declaration order of section 4.1; each entry says when the field is acceptable. -/
def domainConstraints (lib : Library) : List (FieldViolation × (PurchaseInput → Bool)) :=
  [ (.transactionID, fun input => decide (input.TransactionID ≠ "")),
    (.playerID, fun input => decide (input.PlayerID ≠ "")),
    (.playerUsername, fun input => decide (input.PlayerUsername ≠ "")),
    (.gameTitle, fun input => decide (input.GameTitle ≠ "")),
    (.itemType, fun input => decide (input.ItemType ∈ itemTypes)),
    (.platform, fun input => decide (input.Platform ∈ platforms)),
    (.amountCents, fun input => decide (0 ≤ input.AmountCents)),
    (.playerLevel, fun input => decide (1 ≤ input.PlayerLevel ∧ input.PlayerLevel ≤ 100)),
    (.createdAt, fun input => (lib.parseTimestamp input.CreatedAt).isSome) ]

/-- The first constraint of `domainConstraints` the input violates. -/
def firstViolation (lib : Library) (input : PurchaseInput) : Option FieldViolation :=
  ((domainConstraints lib).find? (fun c => ! c.2 input)).map (fun c => c.1)

/-- The errors of the decoder (specification, sections 4.1 and 7), each with
the ordinal position of the line. -/
inductive DecodeError where
  | malformedRecord (line : Nat)
  | validationError (line : Nat) (field : FieldViolation)
  deriving DecidableEq, Repr

/-- The errors of the stream ingestor: a decoder error, or the error of the
callback with the line number attached. -/
inductive StreamError where
  | decode (e : DecodeError)
  | callback (line : Nat) (err : GoError)
  deriving DecidableEq, Repr

/-- The stored shape of a validated input: the timestamp parsed, no identifier
assigned yet, not enriched. -/
def toPurchase (input : PurchaseInput) (createdAt : Int) : Purchase :=
  ⟨0, input.TransactionID, input.PlayerID, input.PlayerUsername, input.GameTitle,
    input.ItemType, input.Genre, input.Platform, input.AmountCents, input.Currency,
    input.PlayerLevel, createdAt, false⟩

/-- Modelled from the spec: the record decoder `decode` of section 4.1, whose
defining file is missing. A line that does not parse yields `malformedRecord`,
a parsed line violating a constraint yields `validationError` with the first
failing field, any other line yields the record. -/
def decode (lib : Library) (lineNo : Nat) (raw : String) : Except DecodeError Purchase :=
  match lib.unmarshal raw with
  | none => .error (.malformedRecord lineNo)
  | some input =>
    match ValidatePurchaseInput lib input with
    | some field => .error (.validationError lineNo field)
    | none =>
      match lib.parseTimestamp input.CreatedAt with
      | none => .error (.validationError lineNo .createdAt)
      | some t => .ok (toPurchase input t)

/-- A line that is empty or holds only white space. -/
def isBlank (raw : String) : Bool := raw.data.all Char.isWhitespace

/-- What `StreamNDJSON` leaves behind: the state of the callback (the variables
its closure captures) after the calls made on it, and the error returned
(`none` for nil). -/
structure StreamResult (σ : Type) where
  state : σ
  err : Option StreamError

/-- The line loop of the stream ingestor (specification, section 4.2): blank
lines are skipped, a line that fails to decode aborts with its error, a decoded
record goes to the callback, whose failure aborts with the line number. The
callback is a closure: it takes the state of its captured variables and the
record, and gives its error and the new state. -/
def streamLoop {σ : Type} (lib : Library) (onRecord : σ → Purchase → Option GoError × σ) :
    Nat → List String → σ → StreamResult σ
  | _, [], s => ⟨s, none⟩
  | lineNo, raw :: rest, s =>
    if isBlank raw then
      streamLoop lib onRecord (lineNo + 1) rest s
    else
      match decode lib lineNo raw with
      | .error e => ⟨s, some (.decode e)⟩
      | .ok purchase =>
        match onRecord s purchase with
        | (some err, s1) => ⟨s1, some (.callback lineNo err)⟩
        | (none, s1) => streamLoop lib onRecord (lineNo + 1) rest s1

/-- The lines of a text, split at the newline character; a text that does not
end in a newline gives its last piece as a line, and the empty text has no line. -/
def linesFrom : List Char → List Char → List String
  | [], current => if current = [] then [] else [String.mk current.reverse]
  | c :: rest, current =>
    if c = '\n' then String.mk current.reverse :: linesFrom rest []
    else linesFrom rest (c :: current)

/-- The lines of an input stream. -/
def linesOf (input : String) : List String := linesFrom input.data []

/-- Modelled from the spec: `StreamNDJSON`, whose defining file is missing.
Section 4.2: read the input line by line, decode each non-blank line and hand
the record to the callback; lines are numbered from 1. -/
def StreamNDJSON {σ : Type} (lib : Library) (input : String)
    (onRecord : σ → Purchase → Option GoError × σ) (s : σ) : StreamResult σ :=
  streamLoop lib onRecord 1 (linesOf input) s

/-- A line is bad when it is not blank and the decoder rejects it at some (every)
position: it is malformed or it violates a domain constraint. -/
def isBadLine (lib : Library) (raw : String) : Bool :=
  ! isBlank raw &&
    match decode lib 0 raw with
    | .error _ => true
    | .ok _ => false

/-- The record of a line, when the line is not blank and decodes. -/
def recordOf (lib : Library) (raw : String) : Option Purchase :=
  if isBlank raw then none
  else
    match decode lib 0 raw with
    | .error _ => none
    | .ok purchase => some purchase

/-- The records of the non-blank lines that precede the first bad line. -/
def recordsBeforeFirstBad (lib : Library) (lines : List String) : List Purchase :=
  (lines.takeWhile (fun raw => ! isBadLine lib raw)).filterMap (recordOf lib)

/-- The callback of `TestStreamNDJSON`: it appends the record to the slice it
captures and returns nil. -/
def collect (purchases : List Purchase) (purchase : Purchase) :
    Option GoError × List Purchase :=
  (none, purchases ++ [purchase])

/-- A callback that returns `ErrBadInput` for every record. -/
def rejecting (s : Unit) (_ : Purchase) : Option GoError × Unit := (some ErrBadInput, s)

/-- The callback `onRecord` with a record of its calls kept beside its state:
every record it is called with is appended, whatever it answers. -/
def observed {σ : Type} (onRecord : σ → Purchase → Option GoError × σ) :
    σ × List Purchase → Purchase → Option GoError × (σ × List Purchase) :=
  fun s purchase =>
    ((onRecord s.1 purchase).1, ((onRecord s.1 purchase).2, s.2 ++ [purchase]))

/-- Handing records to a callback in order until it rejects one: the state it
ends in, and whether it rejected a record. -/
def feed {σ : Type} (onRecord : σ → Purchase → Option GoError × σ) :
    σ → List Purchase → σ × Bool
  | s, [] => (s, false)
  | s, purchase :: rest =>
    match onRecord s purchase with
    | (some _, s1) => (s1, true)
    | (none, s1) => feed onRecord s1 rest

/-- The records of a list that reach a callback when they are handed over in
order until it rejects one: those it accepts and the first it rejects. -/
def handedTo {σ : Type} (onRecord : σ → Purchase → Option GoError × σ) :
    σ → List Purchase → List Purchase
  | _, [] => []
  | s, purchase :: rest =>
    match onRecord s purchase with
    | (some _, _) => [purchase]
    | (none, s1) => purchase :: handedTo onRecord s1 rest

/-- The first record of `TestStreamNDJSON` as the decoder reads it. -/
def sampleInput : PurchaseInput :=
  ⟨"TXN-001", "player_001", "GamerAlice", "Cyberpunk 2077", "game", "RPG", "steam", 5999,
    "USD", 15, "2025-08-15T10:00:00Z"⟩

/-- The first line of the valid case of `TestStreamNDJSON`. -/
def sampleLine : String :=
  "\x7b\"transaction_id\":\"TXN-001\",\"player_id\":\"player_001\",\"player_username\":\"GamerAlice\",\"game_title\":\"Cyberpunk 2077\",\"item_type\":\"game\",\"genre\":\"RPG\",\"platform\":\"steam\",\"amount_cents\":5999,\"currency\":\"USD\",\"player_level\":15,\"created_at\":\"2025-08-15T10:00:00Z\"\x7d"

/-- The same line with an empty transaction id and the amount -100. -/
def invalidLine : String :=
  "\x7b\"transaction_id\":\"\",\"player_id\":\"player_001\",\"player_username\":\"GamerAlice\",\"game_title\":\"Cyberpunk 2077\",\"item_type\":\"game\",\"genre\":\"RPG\",\"platform\":\"steam\",\"amount_cents\":-100,\"currency\":\"USD\",\"player_level\":15,\"created_at\":\"2025-08-15T10:00:00Z\"\x7d"

/-- The record of `invalidLine` as the decoder reads it. -/
def invalidInput : PurchaseInput :=
  ⟨"", "player_001", "GamerAlice", "Cyberpunk 2077", "game", "RPG", "steam", -100,
    "USD", 15, "2025-08-15T10:00:00Z"⟩

/-- A stand-in for the two library calls on the lines used as examples:
`sampleLine` parses to `sampleInput`, `invalidLine` to `invalidInput`, nothing
else parses; the only timestamp it reads is the one of `sampleInput`. -/
def sampleLibrary : Library :=
  ⟨fun raw =>
      if raw = sampleLine then some sampleInput
      else if raw = invalidLine then some invalidInput
      else none,
    fun s => if s = "2025-08-15T10:00:00Z" then some 1755252000 else none⟩

/-- A stream of two valid lines. -/
def validStream : String := sampleLine ++ "\n" ++ sampleLine ++ "\n"

/-- A stream of two valid lines, a blank line between them, then an invalid
line and one more valid line. -/
def sampleStream : String :=
  sampleLine ++ "\n  \n" ++ sampleLine ++ "\n" ++ invalidLine ++ "\n" ++ sampleLine ++ "\n"

/-! ## The purchase store (`store.go`) -/

/-- A `context.Context` as the store and the workers see it: the value of
`ctx.Err()`, nil while the context is live. -/
structure Context where
  err : Option GoError
  deriving DecidableEq, Repr

/-- The context `context.Background()`, which is never cancelled. -/
def Context.background : Context := ⟨none⟩

/-- PurchaseStore of `store.go`, lines 63-74: the three operations of a store
whose state has type `σ`; each returns its Go results and the state it leaves. -/
structure PurchaseStore (σ : Type) where
  AddPurchase : Context → σ → Purchase → (Bool × Option GoError) × σ
  ClaimBatchForEnrichment : Context → σ → Int → (List Purchase × Option GoError) × σ
  MarkEnriched : Context → σ → Int → Option GoError × σ

/-- The rows of the purchases table behind the handle `db` of a `pgStore`; the
declaration of `pgStore` itself is not among the sources. -/
abbrev Database := List Purchase

/-- The rows stored under a transaction id. -/
def rowsFor (db : Database) (transactionID : String) : List Purchase :=
  db.filter (fun row => row.TransactionID = transactionID)

/-- The value `errors.New("not implemented")` builds. -/
def errNotImplemented : GoError := .sentinel "not implemented"

/-- pgStore.AddPurchase of `store.go`, lines 76-81: the body is
`return false, nil`; the database is not touched. -/
def pgStore.AddPurchase (_ : Context) (db : Database) (_ : Purchase) :
    (Bool × Option GoError) × Database :=
  ((false, none), db)

/-- pgStore.ClaimBatchForEnrichment of `store.go`, lines 83-88: the body is
`return nil, errors.New("not implemented")`. -/
def pgStore.ClaimBatchForEnrichment (_ : Context) (db : Database) (_ : Int) :
    (List Purchase × Option GoError) × Database :=
  (([], some errNotImplemented), db)

/-- pgStore.MarkEnriched of `store.go`, lines 90-95: the body is
`return errors.New("not implemented")`. -/
def pgStore.MarkEnriched (_ : Context) (db : Database) (_ : Int) :
    Option GoError × Database :=
  (some errNotImplemented, db)

/-- The type `*pgStore` as a PurchaseStore. -/
def pgStore.asStore : PurchaseStore Database :=
  ⟨pgStore.AddPurchase, pgStore.ClaimBatchForEnrichment, pgStore.MarkEnriched⟩

/-- A call made on a store. -/
inductive StoreCall where
  | addPurchase (p : Purchase)
  | claimBatch (batch : Int)
  | markEnriched (id : Int)
  deriving DecidableEq, Repr

/-- A store that behaves as `store` does and appends every call it receives to
a record kept beside the state. -/
def PurchaseStore.recorded {σ : Type} (store : PurchaseStore σ) :
    PurchaseStore (σ × List StoreCall) :=
  ⟨fun ctx s p =>
      ((store.AddPurchase ctx s.1 p).1, ((store.AddPurchase ctx s.1 p).2,
        s.2 ++ [.addPurchase p])),
    fun ctx s batch =>
      ((store.ClaimBatchForEnrichment ctx s.1 batch).1,
        ((store.ClaimBatchForEnrichment ctx s.1 batch).2, s.2 ++ [.claimBatch batch])),
    fun ctx s id =>
      ((store.MarkEnriched ctx s.1 id).1, ((store.MarkEnriched ctx s.1 id).2,
        s.2 ++ [.markEnriched id]))⟩

/-- The state of `flakyStore`: how many calls of MarkEnriched it has seen and
the identifiers it has marked. -/
structure FlakyState where
  marks : Nat
  enriched : List Int
  deriving DecidableEq, Repr

/-- A store whose MarkEnriched fails with a transient error on its first call
and marks the purchase on every later call. -/
def flakyStore : PurchaseStore FlakyState :=
  ⟨fun _ s _ => ((true, none), s),
    fun _ s _ => (([], none), s),
    fun _ s id =>
      if s.marks = 0 then (some transientErr, ⟨s.marks + 1, s.enriched⟩)
      else (none, ⟨s.marks + 1, s.enriched ++ [id]⟩)⟩

/-- An error of a struct type with a slice field, which is not comparable. -/
def sliceErr : GoError := .uncomparable "rows [7] are locked"

/-- A store whose MarkEnriched fails with `sliceErr`, nothing being stored. -/
def sliceErrStore : PurchaseStore Unit :=
  ⟨fun _ s _ => ((true, none), s),
    fun _ s _ => (([], none), s),
    fun _ s _ => (some sliceErr, s)⟩

/-- A store whose MarkEnriched fails with `ErrNotFound`, nothing being stored. -/
def emptyStore : PurchaseStore Unit :=
  ⟨fun _ s _ => ((true, none), s),
    fun _ s _ => (([], none), s),
    fun _ s _ => (some ErrNotFound, s)⟩

/-! ## The enrichment worker pool (`enrich.go`) -/

/-- WorkerPool of `enrich.go`, lines 12-16. -/
structure WorkerPool (σ : Type) where
  Workers : Int
  Batch : Int
  Store : PurchaseStore σ

/-- What a method of the pool leaves behind: the error it returns, the state of
the store and the lines it wrote to the log. -/
structure PoolResult (σ : Type) where
  err : Option GoError
  store : σ
  logged : List String

/-- WorkerPool.Run of `enrich.go`, lines 20-24: the body is `return nil`; no
worker is started and the store is not called. -/
def WorkerPool.Run {σ : Type} (_ : WorkerPool σ) (_ : Context) (s : σ) : PoolResult σ :=
  ⟨none, s, []⟩

/-- WorkerPool.worker of `enrich.go`, lines 27-32: it logs that it started and
returns nil; the batches of the `jobs` channel are not read. -/
def WorkerPool.worker {σ : Type} (_ : WorkerPool σ) (_ : Context) (workerID : Int)
    (_ : List (List Purchase)) (s : σ) : PoolResult σ :=
  ⟨none, s, ["Worker " ++ toString workerID ++ " started"]⟩

/-- WorkerPool.enrichPurchase of `enrich.go`, lines 35-48: one call of the
store's MarkEnriched with the identifier of the purchase; its error is
returned wrapped, its success is logged. -/
def WorkerPool.enrichPurchase {σ : Type} (wp : WorkerPool σ) (ctx : Context)
    (purchase : Purchase) (s : σ) : PoolResult σ :=
  match wp.Store.MarkEnriched ctx s purchase.ID with
  | (some err, s1) =>
    ⟨some (.wrapf (.other "failed to mark purchase as enriched") err), s1, []⟩
  | (none, s1) => ⟨none, s1, ["Enriched purchase " ++ purchase.TransactionID]⟩

/-- A purchase with the given identifier and transaction id. -/
def purchaseWith (id : Int) (transactionID : String) : Purchase :=
  ⟨id, transactionID, "player_001", "GamerAlice", "Cyberpunk 2077", "game", "RPG", "steam",
    1000, "USD", 15, 1755252000, false⟩

/-! ## The list endpoint (`server.go`) -/

/-- The query of a request to `GET /purchases`: what `r.URL.Query().Get`
returns for `after_id` and for `limit`, the empty string when the parameter
is absent. -/
structure ListQuery where
  afterID : String
  limit : String
  deriving DecidableEq, Repr

/-- ListPurchasesResponse of `server.go`, lines 35-38. -/
structure ListPurchasesResponse where
  Purchases : List Purchase
  NextAfterID : Int
  deriving DecidableEq, Repr

/-- What the handler writes: the status code (200 when `WriteHeader` is not
called before the body), the content type and the encoded value. -/
structure ListReply where
  status : Nat
  contentType : String
  body : ListPurchasesResponse
  deriving DecidableEq, Repr

/-- The status `http.StatusBadRequest`. -/
def StatusBadRequest : Nat := 400

/-- The status `http.StatusOK`. -/
def StatusOK : Nat := 200

/-- Server.handleListPurchases of `server.go`, lines 67-104: the parsing of
`after_id` and `limit` is commented out (the two statements left are `_ =
int64(0)` and `_ = 20`), the store is not called, and the reply is the empty
page with the JSON content type. -/
def handleListPurchases {σ : Type} (_ : PurchaseStore σ) (_ : ListQuery) : ListReply :=
  ⟨StatusOK, "application/json", ⟨[], 0⟩⟩

/-! ## The data generator (`generate-data.go`) -/

namespace Generator

/-- PurchaseRecord of `generate-data.go`, lines 14-26. -/
structure PurchaseRecord where
  TransactionID : String
  PlayerID : String
  PlayerUsername : String
  GameTitle : String
  ItemType : String
  Genre : String
  Platform : String
  AmountCents : Int
  Currency : String
  PlayerLevel : Int
  CreatedAt : String
  deriving DecidableEq, Repr

/-- The table `games`, lines 29-34. -/
def games : List String :=
  ["The Witcher 3", "Cyberpunk 2077", "Rocket League", "Minecraft",
    "Fortnite", "Call of Duty", "FIFA 24", "Spider-Man Miles Morales",
    "Zelda BOTW", "Halo Infinite", "Valorant", "Counter-Strike 2",
    "Apex Legends", "Overwatch 2", "Grand Theft Auto V", "Red Dead Redemption 2"]

/-- The table `itemTypes`, line 36. -/
def itemTypes : List String := ["game", "dlc", "cosmetic", "currency", "season_pass"]

/-- The table `genres`, line 38. -/
def genres : List String :=
  ["RPG", "Action", "Sports", "Sandbox", "FPS", "Adventure", "Strategy", "Racing"]

/-- The table `platforms`, line 40. -/
def platforms : List String := ["steam", "epic", "xbox", "playstation", "nintendo", "mobile"]

/-- The table `currencies`, line 42. -/
def currencies : List String := ["USD", "EUR", "GBP", "CAD", "AUD"]

/-- The library function `rand.Intn` for the bound `n` and the generator's raw
output `raw`. The program calls it with positive bounds only: constants, the
length of a table, a pool length tested positive and a counter tested positive. -/
def Intn (n : Nat) (raw : Nat) : Nat := raw % n

/-- The map `platformPrefixes`, lines 86-93; a key that is missing gives the
empty string. -/
def platformPrefixes (platform : String) : String :=
  if platform = "steam" then "steam_76561198"
  else if platform = "epic" then "epic_player_"
  else if platform = "xbox" then "xbox_user_"
  else if platform = "playstation" then "psn_"
  else if platform = "nintendo" then "nintendo_"
  else if platform = "mobile" then "mobile_"
  else ""

/-- The verbs `%06d` and `%09d` of `fmt.Sprintf` on a number that is not
negative: the decimal digits, padded with zeros on the left up to `width`. -/
def padded (width : Nat) (n : Nat) : String :=
  String.mk (List.replicate (width - (toString n).length) '0') ++ toString n

/-- The random draws of one call of `generatePurchase`: the outcome of the
test `rand.Float64() < 0.7` and the raw output behind each `rand.Intn`. -/
structure PurchaseDraws where
  reusePlayer : Bool
  poolIndex : Nat
  newPlatform : Nat
  newPlayerNumber : Nat
  game : Nat
  itemType : Nat
  amount : Nat
  timeDelta : Nat
  genre : Nat
  platform : Nat
  currency : Nat
  level : Nat
  deriving DecidableEq, Repr

/-- The title adjustment of lines 103-111. -/
def adjustTitle (game itemType : String) : String :=
  if itemType = "dlc" then game ++ " DLC Pack"
  else if itemType = "cosmetic" then game ++ " Skin Pack"
  else if itemType = "currency" then game ++ " Gems"
  else if itemType = "season_pass" then game ++ " Season Pass"
  else game

/-- The price of lines 114-126; the variable keeps its zero value when no case
of the switch applies. -/
def priceFor (itemType : String) (raw : Nat) : Int :=
  if itemType = "game" then (Intn 5000 raw : Nat) + 1999
  else if itemType = "dlc" then (Intn 2000 raw : Nat) + 499
  else if itemType = "cosmetic" then (Intn 1500 raw : Nat) + 199
  else if itemType = "currency" then (Intn 5000 raw : Nat) + 99
  else if itemType = "season_pass" then (Intn 2000 raw : Nat) + 999
  else 0

/-- The player chosen by lines 78-97: one of the pool, or a new one. An index
into a table is always in range here; the default of `getD` is never used. -/
def choosePlayer (playerPool usernamePool : List String) (transactionCounter : Nat)
    (d : PurchaseDraws) : String × String :=
  if d.reusePlayer && decide (playerPool.length > 0) then
    (playerPool.getD (Intn playerPool.length d.poolIndex) "",
      usernamePool.getD (Intn playerPool.length d.poolIndex) "")
  else
    (platformPrefixes (platforms.getD (Intn platforms.length d.newPlatform) "") ++
        padded 9 (Intn 1000000000 d.newPlayerNumber),
      "NewPlayer" ++ toString transactionCounter)

/-- generatePurchase of `generate-data.go`, lines 76-145. The two pools are the
package variables filled by `init`; a `time.Time` is its Unix time in seconds
(the function shifts it by whole seconds only) and `formatTime` is
`Format(time.RFC3339)`. -/
def generatePurchase (playerPool usernamePool : List String) (formatTime : Int → String)
    (transactionCounter : Nat) (baseTime : Int) (d : PurchaseDraws) : PurchaseRecord :=
  let player := choosePlayer playerPool usernamePool transactionCounter d
  let game := games.getD (Intn games.length d.game) ""
  let itemType := itemTypes.getD (Intn itemTypes.length d.itemType) ""
  let timeDelta : Int := (Intn (86400 * 30) d.timeDelta : Nat)
  ⟨"TXN-GEN-" ++ padded 6 transactionCounter, player.1, player.2, adjustTitle game itemType,
    itemType, genres.getD (Intn genres.length d.genre) "",
    platforms.getD (Intn platforms.length d.platform) "", priceFor itemType d.amount,
    currencies.getD (Intn currencies.length d.currency) "",
    (Intn 99 d.level : Nat) + 1, formatTime (baseTime - timeDelta)⟩

/-- The random draws of the duplicate step of `main`: the outcome of the test
`rand.Float64() < duplicateChance` and the raw output behind each `rand.Intn`. -/
structure DuplicateDraws where
  duplicate : Bool
  previous : Nat
  levelUp : Nat
  priceUp : Nat
  deriving DecidableEq, Repr

/-- The record iteration `i` of the loop of `main` marshals and writes, lines
178-188: the generated purchase, which on the duplicate path takes an earlier
transaction id, a level raised by 1 to 3 and an amount raised by 0 to 999. -/
def mainLoopRecord (playerPool usernamePool : List String) (formatTime : Int → String)
    (i : Nat) (baseTime : Int) (d : PurchaseDraws) (dup : DuplicateDraws) : PurchaseRecord :=
  let purchase := generatePurchase playerPool usernamePool formatTime (i + 1) baseTime d
  if decide (i > 0) && dup.duplicate then
    ⟨"TXN-GEN-" ++ padded 6 (Intn i dup.previous + 1), purchase.PlayerID,
      purchase.PlayerUsername, purchase.GameTitle, purchase.ItemType, purchase.Genre,
      purchase.Platform, purchase.AmountCents + (Intn 1000 dup.priceUp : Nat),
      purchase.Currency, purchase.PlayerLevel + ((Intn 3 dup.levelUp : Nat) + 1),
      purchase.CreatedAt⟩
  else
    purchase

/-- The PurchaseInput the ingestor decodes from the JSON of a record: the two
types carry the same fields under the same JSON names. -/
def PurchaseRecord.toInput (r : PurchaseRecord) : PurchaseInput :=
  ⟨r.TransactionID, r.PlayerID, r.PlayerUsername, r.GameTitle, r.ItemType, r.Genre,
    r.Platform, r.AmountCents, r.Currency, r.PlayerLevel, r.CreatedAt⟩

/-- A formatter standing in for `Format(time.RFC3339)` in the examples. -/
def sampleFormat (_ : Int) : String := "2025-08-15T10:00:00Z"

/-- Draws of `generatePurchase` all zero except the level draw, 98, which gives
the level 99. -/
def topLevelDraws : PurchaseDraws := ⟨true, 0, 0, 0, 0, 0, 0, 0, 0, 0, 0, 98⟩

/-- Draws of the duplicate step: the duplicate path is taken and the level is
raised by 3. -/
def levelUpDraws : DuplicateDraws := ⟨true, 0, 2, 0⟩

end Generator

/-! # Theorems -/

/-! ## Lemmas on errors -/

theorem errorsIs_self (err : GoError) (h : err.selfEqual = true) :
    errorsIs err err = true := by
  cases err <;> simp_all [errorsIs, GoError.selfEqual]

theorem IsRetryable_eq_errorsAsRetryable (err : GoError) :
    IsRetryable err = errorsAsRetryable err := by
  unfold IsRetryable
  split <;> simp_all

theorem errorsIs_wrapf_inner (msg : RetryMsg) (inner : GoError)
    (h : inner.selfEqual = true) : errorsIs (.wrapf msg inner) inner = true := by
  simp [errorsIs, errorsIs_self inner h]

/-! ## Lemmas on the retry loop -/

/-- The loop never forgets an invocation: the count it reports is at least the
count it started from. -/
theorem retryLoop_calls_ge {T : Type} (zero : T) (attempts base : Int) (env : RetryEnv T) :
    ∀ (fuel : Nat) (attempt : Int) (lastErr : Option GoError) (calls : Nat) (run : RetryRun T),
      retryLoop zero attempts base env fuel attempt lastErr calls = some run →
        calls ≤ run.calls := by
  intro fuel
  induction fuel with
  | zero => intro attempt lastErr calls run h; simp [retryLoop] at h
  | succ fuel ih =>
    intro attempt lastErr calls run h
    unfold retryLoop at h
    split at h
    · split at h
      · cases h; simp
      · split at h
        · cases h; simp
        · split at h
          · cases h; simp [retryExhausted]
          · split at h
            · cases h; simp [retryExhausted]
            · split at h
              · cases h; simp
              · split at h
                · cases h; simp
                · have := ih _ _ _ _ h
                  omega
    · cases h; simp [retryExhausted]

/-- With one unit of fuel more than the iterations left, the loop ends. -/
theorem retryLoop_isSome {T : Type} (zero : T) (attempts base : Int) (env : RetryEnv T) :
    ∀ (fuel : Nat) (attempt : Int) (lastErr : Option GoError) (calls : Nat),
      (attempts - attempt + 1).toNat < fuel →
        (retryLoop zero attempts base env fuel attempt lastErr calls).isSome = true := by
  intro fuel
  induction fuel with
  | zero => intro attempt lastErr calls h; omega
  | succ fuel ih =>
    intro attempt lastErr calls h
    unfold retryLoop
    split
    · split
      · rfl
      · split
        · rfl
        · split
          · rfl
          · split
            · rfl
            · split
              · rfl
              · split
                · rfl
                · apply ih
                  omega
    · rfl

/-- Retry is total: every call returns or panics. -/
theorem Retry_total {T : Type} (zero : T) (env : RetryEnv T) (attempts base : Int) :
    ∃ run, Retry zero env attempts base = some run := by
  unfold Retry
  split
  · exact ⟨_, rfl⟩
  · apply Option.isSome_iff_exists.mp
    apply retryLoop_isSome
    omega

/-- What one iteration does when the attempt fails with an error that is not
a cancellation, it is not the last attempt, the backoff is computed and the
timer fires first: the loop moves on to the next attempt. -/
theorem retryLoop_step {T : Type} (zero : T) (attempts base : Int) (env : RetryEnv T)
    (fuel : Nat) (attempt : Int) (lastErr : Option GoError) (calls : Nat)
    (result : T) (err : GoError)
    (hlt : attempt < attempts)
    (hctx : env.doneBefore attempt.toNat = false)
    (hfn : env.fn (calls + 1) = (result, some err))
    (hcancel : isCancellation err = false)
    (hback : (calculateBackoffWithJitter base attempt
      (env.draws attempt.toNat).1 (env.draws attempt.toNat).2).isSome = true)
    (hsleep : env.doneDuringBackoff attempt.toNat = false) :
    retryLoop zero attempts base env (fuel + 1) attempt lastErr calls =
      retryLoop zero attempts base env fuel (attempt + 1) (some err) (calls + 1) := by
  obtain ⟨d, hd⟩ := Option.isSome_iff_exists.mp hback
  have hle : attempt ≤ attempts := le_of_lt hlt
  have hne : attempt ≠ attempts := ne_of_lt hlt
  rw [retryLoop]
  simp only [hle, hctx, hfn, hne, hcancel, hd, hsleep, if_true, if_false]
  simp

/-- After `k` attempts that fail and sleep, the loop stands at the loop test of
attempt `k + 1`, having consumed `k` units of fuel and made `k` invocations. -/
theorem retryLoop_after_failures {T : Type} (zero : T) (attempts base : Int)
    (env : RetryEnv T) (k : Nat) (hk : (k : Int) < attempts)
    (hfail : ∀ i, 1 ≤ i → i ≤ k → failsAndSleeps env base i) :
    ∀ fuel, retryLoop zero attempts base env (fuel + k) 1 none 0 =
      retryLoop zero attempts base env fuel (k + 1) (lastErrAfter env k) k := by
  induction k with
  | zero => intro fuel; simp [lastErrAfter]
  | succ k ih =>
    intro fuel
    have hk1 : ((k : Nat) : Int) < attempts := by push_cast at hk; omega
    have ih1 := ih hk1 (fun i h1 h2 => hfail i h1 (by omega)) (fuel + 1)
    have hadd : fuel + (k + 1) = fuel + 1 + k := by omega
    rw [hadd, ih1]
    obtain ⟨hctx, ⟨result, err, hfn, hcancel⟩, hback, hsleep⟩ := hfail (k + 1) (by omega) (le_refl _)
    have hnat : ((k : Int) + 1).toNat = k + 1 := by omega
    have hstep := retryLoop_step zero attempts base env fuel ((k : Int) + 1)
      (lastErrAfter env k) k result err (by push_cast at hk; omega)
      (by rw [hnat]; exact hctx) hfn hcancel
      (by rw [hnat]; push_cast at hback; exact hback) (by rw [hnat]; exact hsleep)
    rw [hstep]
    simp [lastErrAfter, hfn]

/-! ## The retry executor -/

/-- Retry returns the first success: after `k` attempts that fail and sleep,
a success on invocation `k + 1` is returned with a nil error, the operation
having been invoked `k + 1` times. -/
theorem Retry_success_after_failures {T : Type} (zero : T) (env : RetryEnv T)
    (attempts base : Int) (k : Nat) (v : T) (hk : (k : Int) < attempts)
    (hfail : ∀ i, 1 ≤ i → i ≤ k → failsAndSleeps env base i)
    (hctx : env.doneBefore (k + 1) = false)
    (hok : env.fn (k + 1) = (v, none)) :
    Retry zero env attempts base = some ⟨.returned v none, k + 1⟩ := by
  have hpos : ¬ attempts ≤ 0 := by omega
  obtain ⟨f, hf⟩ : ∃ f, attempts.toNat + 1 = f + 1 + k := ⟨attempts.toNat - k, by omega⟩
  unfold Retry
  rw [if_neg hpos, hf, retryLoop_after_failures zero attempts base env k hk hfail (f + 1)]
  have hnat : ((k : Int) + 1).toNat = k + 1 := by omega
  have hle : (k : Int) + 1 ≤ attempts := by omega
  rw [retryLoop]
  simp [hle, hnat, hctx, hok]

/-- Retry exhausts its attempts: when every one of the `n` attempts fails with
an error that is not a cancellation, and each of the first `n - 1` is followed
by a full backoff sleep, the operation is invoked `n` times and the error wraps
the last failure. -/
theorem Retry_exhausts {T : Type} (zero : T) (env : RetryEnv T)
    (base : Int) (n : Nat) (result : T) (err : GoError)
    (hfail : ∀ i, 1 ≤ i → i ≤ n → failsAndSleeps env base i)
    (hlast : env.fn (n + 1) = (result, some err))
    (hctx : env.doneBefore (n + 1) = false) :
    Retry zero env ((n : Int) + 1) base =
      some ⟨.returned zero (some (.wrapf (.allFailed ((n : Int) + 1)) err)), n + 1⟩ := by
  have hpos : ¬ ((n : Int) + 1) ≤ 0 := by omega
  obtain ⟨f, hf⟩ : ∃ f, ((n : Int) + 1).toNat + 1 = f + 1 + n := ⟨1, by omega⟩
  unfold Retry
  rw [if_neg hpos, hf,
    retryLoop_after_failures zero ((n : Int) + 1) base env n (by omega) hfail (f + 1)]
  have hnat : ((n : Int) + 1).toNat = n + 1 := by omega
  rw [retryLoop]
  simp [hnat, hctx, hlast, retryExhausted, fmtErrorfW]

/-- C1 (code defect): with three attempts, a base delay of zero and an operation
that fails twice with a retryable error and then succeeds with 42, under a
context that is never cancelled, Retry does not return the success: it invokes
the operation once and panics in the backoff computation, where the bound
handed to `rand.Int63n` is zero. -/
theorem Retry_zero_base_panics_before_success :
    IsRetryable transientErr = true ∧ isCancellation transientErr = false ∧
    failsThenSucceeds 2 3 = (42, none) ∧
    calculateBackoffWithJitter 0 1 0 0 = none ∧
    Retry 0 (liveEnv (failsThenSucceeds 2) zeroDraws) 3 0 = some ⟨.panicked, 1⟩ := by
  decide

/-- C2 (code defect): with three attempts, a base delay of one nanosecond and an
operation that always fails with a retryable error, under a context that is
never cancelled, Retry does not use its three attempts: it invokes the
operation once and panics in the backoff computation. -/
theorem Retry_tiny_base_panics_before_exhaustion :
    IsRetryable transientErr = true ∧ isCancellation transientErr = false ∧
    calculateBackoffWithJitter 1 1 0 0 = none ∧
    Retry 0 (liveEnv (alwaysFails transientErr) zeroDraws) 3 1 = some ⟨.panicked, 1⟩ := by
  decide

/-- C3 (code defect): `ErrNotFound` is classified not retryable by IsRetryable
and is not a cancellation, yet with two attempts, a base delay of 100 ms and a
context that is never cancelled Retry invokes an operation that always fails
with it twice and reports exhaustion. -/
theorem Retry_retries_not_found :
    IsRetryable ErrNotFound = false ∧ isCancellation ErrNotFound = false ∧
    Retry 0 (liveEnv (alwaysFails ErrNotFound) zeroDraws) 2 (100 * Millisecond) =
      some ⟨.returned 0 (some (.wrapf (.allFailed 2) ErrNotFound)), 2⟩ := by
  decide

/-- What the code does instead of consulting the classifier: for at least two
attempts and a context that is never cancelled, when the first invocation
fails with `err`, Retry returns an error
after that single invocation exactly when `err` is a cancellation
(`errors.Is` finds `context.Canceled` or `context.DeadlineExceeded`); the
classification by IsRetryable plays no part. After any other first failure,
provided the backoff is computed, the operation is invoked again. -/
theorem Retry_stops_at_first_failure_iff_cancellation {T : Type} (zero : T)
    (fn : Nat → T × Option GoError) (draws : Nat → Nat × Nat) (attempts base : Int)
    (result : T) (err : GoError)
    (hn : 2 ≤ attempts) (hfn : fn 1 = (result, some err)) :
    ((∃ v e, Retry zero (liveEnv fn draws) attempts base = some ⟨.returned v (some e), 1⟩) ↔
      isCancellation err = true) ∧
    (isCancellation err = false →
      (calculateBackoffWithJitter base 1 (draws 1).1 (draws 1).2).isSome = true →
      ∃ run, Retry zero (liveEnv fn draws) attempts base = some run ∧ 2 ≤ run.calls) := by
  have hpos : ¬ attempts ≤ 0 := by omega
  obtain ⟨f, hf⟩ : ∃ f, attempts.toNat + 1 = f + 2 := ⟨attempts.toNat - 1, by omega⟩
  have hne : (1 : Int) ≠ attempts := by omega
  have hle : (1 : Int) ≤ attempts := by omega
  have hle2 : (1 : Int) + 1 ≤ attempts := by omega
  -- every way the second iteration can end has made two invocations
  have hsecond : ∀ run, retryLoop zero attempts base (liveEnv fn draws) (f + 1) (1 + 1)
      (some err) 1 = some run → 2 ≤ run.calls := by
    intro run hrun
    rw [retryLoop] at hrun
    simp only [hle2, liveEnv, if_true, Bool.false_eq_true, if_false] at hrun
    repeat' split at hrun
    all_goals first
      | exact retryLoop_calls_ge _ _ _ _ _ _ _ _ _ hrun
      | (cases hrun; simp [retryExhausted])
  unfold Retry
  rw [if_neg hpos, hf, retryLoop]
  simp only [hle, if_true, liveEnv, hfn, hne, if_false, Int.toNat_one]
  by_cases hc : isCancellation err = true
  · simp [hc, retryExhausted]
  · have hc2 : isCancellation err = false := by simpa using hc
    simp only [hc2, Bool.false_eq_true, if_false]
    cases hb : calculateBackoffWithJitter base 1 (draws 1).1 (draws 1).2 with
    | none => simp
    | some d =>
      simp only [Option.isSome_some, forall_const]
      obtain ⟨run, hrun⟩ := Option.isSome_iff_exists.mp
        (retryLoop_isSome zero attempts base (liveEnv fn draws) (f + 1) (1 + 1) (some err) 1
          (by omega))
      have h2 := hsecond run hrun
      simp only [liveEnv] at hrun
      constructor
      · constructor
        · rintro ⟨v, e, h⟩
          rw [hrun] at h
          cases h
          simp at h2
        · intro h; simp at h
      · exact ⟨run, hrun, h2⟩

/-- The same at a concrete input: three attempts, 100 ms base delay, an
operation failing with `ErrNotFound` every time. -/
theorem Retry_stops_at_first_failure_iff_cancellation_witness :
    ((2 : Int) ≤ 3 ∧ alwaysFails ErrNotFound 1 = (0, some ErrNotFound)) ∧
    (((∃ v e, Retry 0 (liveEnv (alwaysFails ErrNotFound) zeroDraws) 3 (100 * Millisecond) =
        some ⟨.returned v (some e), 1⟩) ↔ isCancellation ErrNotFound = true) ∧
      (isCancellation ErrNotFound = false →
        (calculateBackoffWithJitter (100 * Millisecond) 1 (zeroDraws 1).1
          (zeroDraws 1).2).isSome = true →
        ∃ run, Retry 0 (liveEnv (alwaysFails ErrNotFound) zeroDraws) 3 (100 * Millisecond) =
          some run ∧ 2 ≤ run.calls)) :=
  ⟨⟨by decide, rfl⟩,
    Retry_stops_at_first_failure_iff_cancellation 0 (alwaysFails ErrNotFound) zeroDraws 3
      (100 * Millisecond) 0 ErrNotFound (by decide) rfl⟩

/-- C4 (code defect): with three attempts, when the first invocation fails with
`context.Canceled` Retry stops after that one invocation, yet the error it
returns is the exhaustion error stating three attempts. -/
theorem Retry_cancellation_misstates_attempts :
    Retry 0 (liveEnv (alwaysFails .canceled) zeroDraws) 3 (100 * Millisecond) =
      some ⟨.returned 0 (some (.wrapf (.allFailed 3) .canceled)), 1⟩ ∧
    statedAttempts (.wrapf (.allFailed 3) .canceled) = some 3 := by
  decide

/-- C5: cancellation that Retry observes is reported as cancellation and ends
the run. For at least one attempt: (1) if the context is already done at the
first check, the operation is never invoked and the error is the
"cancelled after 0 attempts" error wrapping `ctx.Err()`; (2) if the run reaches
the backoff sleep after attempt `k` (the attempts before it failed and slept,
attempt `k` failed with an error that is not a cancellation, it was not the
last one and its backoff was computed) and the sleep observes the context
done, the operation has been invoked exactly `k` times and the error is the
"cancelled during backoff after attempt k" error wrapping `ctx.Err()`;
(3) such errors satisfy `errors.Is` for `ctx.Err()` and are never the
"all attempts failed" error. -/
theorem Retry_reports_observed_cancellation {T : Type} (zero : T) (env : RetryEnv T)
    (attempts base : Int) (hn : 1 ≤ attempts) :
    (env.doneBefore 1 = true →
      Retry zero env attempts base =
        some ⟨.returned zero (some (.wrapf (.cancelledAfter 0) env.ctxErr)), 0⟩) ∧
    (∀ k : Nat, 1 ≤ k → (k : Int) < attempts →
      (∀ i, 1 ≤ i → i < k → failsAndSleeps env base i) →
      env.doneBefore k = false →
      (∃ result err, env.fn k = (result, some err) ∧ isCancellation err = false) →
      (calculateBackoffWithJitter base k (env.draws k).1 (env.draws k).2).isSome = true →
      env.doneDuringBackoff k = true →
      Retry zero env attempts base =
        some ⟨.returned zero (some (.wrapf (.cancelledDuringBackoff k) env.ctxErr)), k⟩) ∧
    (∀ count : Int, ∀ e : GoError,
      (e = .wrapf (.cancelledAfter count) env.ctxErr ∨
        e = .wrapf (.cancelledDuringBackoff count) env.ctxErr) →
      e.unwrap = some env.ctxErr ∧ errorsIs e env.ctxErr = true ∧
        statedAttempts e = some count ∧
        ∀ n lastErr, e ≠ fmtErrorfW (.allFailed n) lastErr) := by
  have hpos : ¬ attempts ≤ 0 := by omega
  refine ⟨?_, ?_, ?_⟩
  · intro hdone
    obtain ⟨f, hf⟩ : ∃ f, attempts.toNat + 1 = f + 1 := ⟨attempts.toNat, rfl⟩
    unfold Retry
    rw [if_neg hpos, hf, retryLoop]
    simp [hn, hdone]
  · intro k hk1 hk hfail hctx hfn hback hsleep
    obtain ⟨j, rfl⟩ : ∃ j, k = j + 1 := ⟨k - 1, by omega⟩
    obtain ⟨result, err, hfn, hcancel⟩ := hfn
    obtain ⟨d, hd⟩ := Option.isSome_iff_exists.mp hback
    obtain ⟨f, hf⟩ : ∃ f, attempts.toNat + 1 = f + 1 + j := ⟨attempts.toNat - j, by omega⟩
    have hj : (j : Int) < attempts := by push_cast at hk; omega
    unfold Retry
    rw [if_neg hpos, hf, retryLoop_after_failures zero attempts base env j hj
      (fun i h1 h2 => hfail i h1 (by omega)) (f + 1)]
    have hnat : ((j : Int) + 1).toNat = j + 1 := by omega
    have hle : (j : Int) + 1 ≤ attempts := by omega
    have hne : (j : Int) + 1 ≠ attempts := by push_cast at hk; omega
    push_cast at hd
    rw [retryLoop]
    simp [hle, hnat, hctx, hfn, hne, hcancel, hd, hsleep]
  · rintro count e (rfl | rfl)
    · refine ⟨rfl, errorsIs_wrapf_inner _ _ env.ctxErrEqual, rfl, ?_⟩
      intro n lastErr
      cases lastErr <;> simp [fmtErrorfW]
    · refine ⟨rfl, errorsIs_wrapf_inner _ _ env.ctxErrEqual, rfl, ?_⟩
      intro n lastErr
      cases lastErr <;> simp [fmtErrorfW]

/-- C5 at concrete inputs: a context cancelled from the start, and a context
found cancelled during the second backoff sleep, with three attempts and a base
delay of 100 ms. -/
theorem Retry_reports_observed_cancellation_witness :
    (1 : Int) ≤ 3 ∧
    Retry 0 cancelledEnv 3 (100 * Millisecond) =
      some ⟨.returned 0 (some (.wrapf (.cancelledAfter 0) .canceled)), 0⟩ ∧
    Retry 0 cancelledInSecondBackoffEnv 3 (100 * Millisecond) =
      some ⟨.returned 0 (some (.wrapf (.cancelledDuringBackoff 2) .deadlineExceeded)), 2⟩ :=
  ⟨by decide,
    (Retry_reports_observed_cancellation 0 cancelledEnv 3 (100 * Millisecond) (by decide)).1 rfl,
    (Retry_reports_observed_cancellation 0 cancelledInSecondBackoffEnv 3 (100 * Millisecond)
      (by decide)).2.1 2 (by decide) (by decide)
      (fun i h1 h2 => by
        have hi : i = 1 := by omega
        subst hi
        exact ⟨rfl, ⟨0, ErrNotFound, rfl, by decide⟩, by decide, by decide⟩)
      rfl ⟨0, ErrNotFound, rfl, by decide⟩ (by decide) (by decide)⟩

/-- Inside the 64-bit range `wrap64` changes nothing. -/
theorem wrap64_of_inRange (x : Int) (hlo : -9223372036854775808 ≤ x)
    (hhi : x < 9223372036854775808) : wrap64 x = x := by
  unfold wrap64
  norm_num
  omega

/-- The band the code realises: when the exponential delay `E` is at least 4 ns
and at most 20 s (so that both bounds handed to the generator are positive,
nothing overflows and the cap is not reached), the duration returned is
`E + j1 - j2` with `0 ≤ j1 < E/2` and `0 ≤ j2 < E/4`, hence strictly between
`0.75 E` and `1.5 E`. -/
theorem calculateBackoffWithJitter_actual_band (base attempt : Int) (raw1 raw2 : Nat)
    (hlo : 4 ≤ exponentialOf base attempt) (hhi : exponentialOf base attempt ≤ 20 * Second) :
    ∃ d, calculateBackoffWithJitter base attempt raw1 raw2 = some d ∧
      3 * exponentialOf base attempt < 4 * d ∧ 2 * d < 3 * exponentialOf base attempt := by
  unfold calculateBackoffWithJitter
  generalize exponentialOf base attempt = E at hlo hhi
  have hS : Second = 1000000000 := rfl
  rw [hS] at hhi
  have h2 : Int.tdiv E 2 = E / 2 := Int.tdiv_eq_ediv (by omega) (by omega)
  have h4 : Int.tdiv E 4 = E / 4 := Int.tdiv_eq_ediv (by omega) (by omega)
  have hp2 : ¬ E / 2 ≤ 0 := by omega
  have hp4 : ¬ E / 4 ≤ 0 := by omega
  have hj1 : (Int.ofNat (raw1 % (E / 2).toNat)) < E / 2 ∧ 0 ≤ (Int.ofNat (raw1 % (E / 2).toNat)) := by
    have : raw1 % (E / 2).toNat < (E / 2).toNat := Nat.mod_lt _ (by omega)
    constructor <;> simp only [Int.ofNat_eq_coe] <;> omega
  have hj2 : (Int.ofNat (raw2 % (E / 4).toNat)) < E / 4 ∧ 0 ≤ (Int.ofNat (raw2 % (E / 4).toNat)) := by
    have : raw2 % (E / 4).toNat < (E / 4).toNat := Nat.mod_lt _ (by omega)
    constructor <;> simp only [Int.ofNat_eq_coe] <;> omega
  simp only [h2, h4, Int63n, hp2, hp4, if_false, hS]
  generalize (Int.ofNat (raw1 % (E / 2).toNat)) = j1 at hj1
  generalize (Int.ofNat (raw2 % (E / 4).toNat)) = j2 at hj2
  rw [wrap64_of_inRange (j1 - j2) (by omega) (by omega),
    wrap64_of_inRange (E + (j1 - j2)) (by omega) (by omega)]
  have hcap : ¬ E + (j1 - j2) > 30 * 1000000000 := by omega
  rw [if_neg hcap]
  exact ⟨_, rfl, by omega, by omega⟩

/-- C6 (code defect): with a base delay of 100 ms at attempt 1 the exponential
delay is 100 ms, the draws 49999999 and 0 are possible outcomes of the two
calls of `rand.Int63n`, nothing overflows and the result, 149999999 ns, is
below the cap; it lies above 1.25 times the exponential delay. -/
theorem calculateBackoffWithJitter_above_band :
    exponentialOf (100 * Millisecond) 1 = 100000000 ∧
    Int63n (Int.tdiv 100000000 2) 49999999 = some 49999999 ∧
    Int63n (Int.tdiv 100000000 4) 0 = some 0 ∧
    calculateBackoffWithJitter (100 * Millisecond) 1 49999999 0 = some 149999999 ∧
    (149999999 : Int) < 30 * Second ∧
    ¬ (4 * (149999999 : Int) ≤ 5 * exponentialOf (100 * Millisecond) 1) := by
  decide

/-- C7: whenever calculateBackoffWithJitter returns, whatever the base delay,
the attempt index and the two draws, the duration returned is at most 30
seconds. -/
theorem calculateBackoffWithJitter_le_cap (base attempt : Int) (raw1 raw2 : Nat) (d : Int)
    (h : calculateBackoffWithJitter base attempt raw1 raw2 = some d) :
    d ≤ 30 * Second := by
  unfold calculateBackoffWithJitter at h
  simp only at h
  split at h
  · cases h
  · split at h
    · cases h
    · simp only [Option.some.injEq] at h
      subst h
      split
      · exact le_refl _
      · omega

/-- C7 at a concrete input: base delay one second, attempt 10, where the
uncapped delay would be 512 seconds. -/
theorem calculateBackoffWithJitter_le_cap_witness :
    calculateBackoffWithJitter Second 10 7 3 = some (30 * Second) ∧
    (30 * Second : Int) ≤ 30 * Second :=
  ⟨by decide, calculateBackoffWithJitter_le_cap Second 10 7 3 (30 * Second) (by decide)⟩

/-- C8 (code defect): a cancellation wrapped in a RetryableError has
`context.Canceled` in its chain, as `errors.Is` confirms, and IsRetryable
classifies it retryable; the same holds for a wrapped deadline error. -/
theorem IsRetryable_wrapped_cancellation :
    errorsIs (.retryable .canceled) .canceled = true ∧
    IsRetryable (.retryable .canceled) = true ∧
    errorsIs (.retryable (.wrapf (.other "query") .deadlineExceeded)) .deadlineExceeded = true ∧
    IsRetryable (.retryable (.wrapf (.other "query") .deadlineExceeded)) = true := by
  decide

/-! ## Record decoder and stream ingestor -/

theorem ValidatePurchaseInput_eq_none_iff (lib : Library) (input : PurchaseInput) :
    ValidatePurchaseInput lib input = none ↔
      input.TransactionID ≠ "" ∧ input.PlayerID ≠ "" ∧ input.PlayerUsername ≠ "" ∧
      input.GameTitle ≠ "" ∧ input.ItemType ∈ itemTypes ∧ input.Platform ∈ platforms ∧
      0 ≤ input.AmountCents ∧ (1 ≤ input.PlayerLevel ∧ input.PlayerLevel ≤ 100) ∧
      (lib.parseTimestamp input.CreatedAt).isSome = true := by
  unfold ValidatePurchaseInput
  split_ifs with h1 h2 h3 h4 h5 h6 h7 h8 h9
  case neg =>
    have h9s : (lib.parseTimestamp input.CreatedAt).isSome = true := by
      cases h : lib.parseTimestamp input.CreatedAt with
      | none => simp [h] at h9
      | some t => rfl
    exact ⟨fun _ => ⟨h1, h2, h3, h4, by simpa using h5, by simpa using h6, by omega,
      by omega, h9s⟩, fun _ => rfl⟩
  all_goals
    constructor
    · intro h; cases h
    · rintro ⟨a1, a2, a3, a4, a5, a6, a7, a8, a9⟩
      first
        | contradiction
        | omega
        | (rw [Option.isNone_iff_eq_none] at h9; rw [h9] at a9; cases a9)

theorem ValidatePurchaseInput_eq_firstViolation (lib : Library) (input : PurchaseInput) :
    ValidatePurchaseInput lib input = firstViolation lib input := by
  unfold firstViolation domainConstraints ValidatePurchaseInput 
  by_cases h1 : input.TransactionID = ""
  · simp [h1, List.find?]
  by_cases h2 : input.PlayerID = ""
  · simp [h1, h2, List.find?]
  by_cases h3 : input.PlayerUsername = ""
  · simp [h1, h2, h3, List.find?]
  by_cases h4 : input.GameTitle = ""
  · simp [h1, h2, h3, h4, List.find?]
  by_cases h5 : input.ItemType ∈ itemTypes
  swap
  · simp [h1, h2, h3, h4, h5, List.find?]
  by_cases h6 : input.Platform ∈ platforms
  swap
  · simp [h1, h2, h3, h4, h5, h6, List.find?]
  by_cases h7 : input.AmountCents < 0
  · have h7c : ¬ 0 ≤ input.AmountCents := by omega
    simp [h1, h2, h3, h4, h5, h6, h7, h7c, List.find?]
  have h7b : 0 ≤ input.AmountCents := by omega
  by_cases h8 : input.PlayerLevel < 1 ∨ input.PlayerLevel > 100
  · by_cases h8c : 1 ≤ input.PlayerLevel
    · have h8d : ¬ input.PlayerLevel ≤ 100 := by omega
      simp [h1, h2, h3, h4, h5, h6, h7, h7b, h8, h8c, h8d, List.find?]
    · simp [h1, h2, h3, h4, h5, h6, h7, h7b, h8, h8c, List.find?]
  have h8c : 1 ≤ input.PlayerLevel := by omega
  have h8d : input.PlayerLevel ≤ 100 := by omega
  cases h9 : lib.parseTimestamp input.CreatedAt with
  | none => simp [h1, h2, h3, h4, h5, h6, h7, h7b, h8, h8c, h8d, h9, List.find?]
  | some t => simp [h1, h2, h3, h4, h5, h6, h7, h7b, h8, h8c, h8d, h9, List.find?]

/-- The six cases of `TestValidatePurchaseInput` come out as the test expects. -/
theorem ValidatePurchaseInput_test_table :
    ValidatePurchaseInput sampleLibrary sampleInput = none ∧
    ValidatePurchaseInput sampleLibrary
      ⟨"", "player_001", "GamerAlice", "Cyberpunk 2077", "game", "RPG", "steam", 5999,
        "USD", 15, "2025-08-15T10:00:00Z"⟩ ≠ none ∧
    ValidatePurchaseInput sampleLibrary
      ⟨"TXN-001", "player_001", "GamerAlice", "Cyberpunk 2077", "invalid", "RPG", "steam", 5999,
        "USD", 15, "2025-08-15T10:00:00Z"⟩ ≠ none ∧
    ValidatePurchaseInput sampleLibrary
      ⟨"TXN-001", "player_001", "GamerAlice", "Cyberpunk 2077", "game", "RPG", "invalid", 5999,
        "USD", 15, "2025-08-15T10:00:00Z"⟩ ≠ none ∧
    ValidatePurchaseInput sampleLibrary
      ⟨"TXN-001", "player_001", "GamerAlice", "Cyberpunk 2077", "game", "RPG", "steam", -100,
        "USD", 15, "2025-08-15T10:00:00Z"⟩ ≠ none ∧
    ValidatePurchaseInput sampleLibrary
      ⟨"TXN-001", "player_001", "GamerAlice", "Cyberpunk 2077", "game", "RPG", "steam", 5999,
        "USD", 0, "2025-08-15T10:00:00Z"⟩ ≠ none := by
  decide

/-- C9: ValidatePurchaseInput accepts an input exactly when every domain
constraint holds, and otherwise reports the first violated constraint in
declaration order; an input with an empty transaction id reports the
transaction-id error whatever its other fields, for instance with the amount
-100. -/
theorem ValidatePurchaseInput_first_violation (lib : Library) (input : PurchaseInput) :
    (ValidatePurchaseInput lib input = none ↔
      input.TransactionID ≠ "" ∧ input.PlayerID ≠ "" ∧ input.PlayerUsername ≠ "" ∧
      input.GameTitle ≠ "" ∧ input.ItemType ∈ itemTypes ∧ input.Platform ∈ platforms ∧
      0 ≤ input.AmountCents ∧ (1 ≤ input.PlayerLevel ∧ input.PlayerLevel ≤ 100) ∧
      (lib.parseTimestamp input.CreatedAt).isSome = true) ∧
    ValidatePurchaseInput lib input = firstViolation lib input ∧
    (input.TransactionID = "" → ValidatePurchaseInput lib input = some .transactionID) ∧
    (invalidInput.TransactionID = "" ∧ invalidInput.AmountCents = -100 ∧
      ValidatePurchaseInput lib invalidInput = some .transactionID) := by
  refine ⟨ValidatePurchaseInput_eq_none_iff lib input,
    ValidatePurchaseInput_eq_firstViolation lib input, ?_, rfl, rfl, rfl⟩
  intro h
  unfold ValidatePurchaseInput
  rw [if_pos h]

/-- Whether the decoder accepts a line, and the record it yields, do not depend
on the position of the line. -/
theorem decode_ok_iff (lib : Library) (n m : Nat) (raw : String) (purchase : Purchase) :
    decode lib n raw = .ok purchase ↔ decode lib m raw = .ok purchase := by
  unfold decode
  cases lib.unmarshal raw with
  | none => simp
  | some input =>
    simp only
    cases ValidatePurchaseInput lib input with
    | some field => simp
    | none =>
      simp only
      cases lib.parseTimestamp input.CreatedAt <;> simp

theorem decode_cases (lib : Library) (n : Nat) (raw : String) :
    (∃ e, decode lib n raw = .error e ∧ ∃ e0, decode lib 0 raw = .error e0) ∨
    (∃ purchase, decode lib n raw = .ok purchase ∧ decode lib 0 raw = .ok purchase) := by
  cases h : decode lib n raw with
  | error e =>
    left
    refine ⟨e, rfl, ?_⟩
    cases h0 : decode lib 0 raw with
    | error e0 => exact ⟨e0, rfl⟩
    | ok purchase =>
      rw [(decode_ok_iff lib n 0 raw purchase).mpr h0] at h
      cases h
  | ok purchase => exact Or.inr ⟨purchase, rfl, (decode_ok_iff lib n 0 raw purchase).mp h⟩

theorem recordsBeforeFirstBad_cons_blank (lib : Library) (raw : String) (rest : List String)
    (hb : isBlank raw = true) :
    recordsBeforeFirstBad lib (raw :: rest) = recordsBeforeFirstBad lib rest := by
  have hbad : isBadLine lib raw = false := by simp [isBadLine, hb]
  have hrec : recordOf lib raw = none := by simp [recordOf, hb]
  simp [recordsBeforeFirstBad, List.takeWhile, hbad, hrec]

theorem recordsBeforeFirstBad_cons_bad (lib : Library) (raw : String) (rest : List String)
    (hbad : isBadLine lib raw = true) : recordsBeforeFirstBad lib (raw :: rest) = [] := by
  simp [recordsBeforeFirstBad, List.takeWhile, hbad]

theorem recordsBeforeFirstBad_cons_good (lib : Library) (raw : String) (rest : List String)
    (purchase : Purchase) (hb : isBlank raw = false) (hp : decode lib 0 raw = .ok purchase) :
    recordsBeforeFirstBad lib (raw :: rest) = purchase :: recordsBeforeFirstBad lib rest := by
  have hbad : isBadLine lib raw = false := by simp [isBadLine, hb, hp]
  have hrec : recordOf lib raw = some purchase := by simp [recordOf, hb, hp]
  simp [recordsBeforeFirstBad, List.takeWhile, hbad, hrec]

/-- The line loop, whatever the callback does: it hands over, in order, the
records of the non-blank lines before the first bad line until the callback
rejects one, and its error is nil exactly when no record was rejected and no
line is bad. -/
theorem streamLoop_feeds {σ : Type} (lib : Library)
    (onRecord : σ → Purchase → Option GoError × σ) :
    ∀ (lines : List String) (lineNo : Nat) (s : σ),
      (streamLoop lib onRecord lineNo lines s).state =
          (feed onRecord s (recordsBeforeFirstBad lib lines)).1 ∧
        ((streamLoop lib onRecord lineNo lines s).err = none ↔
          (feed onRecord s (recordsBeforeFirstBad lib lines)).2 = false ∧
            ∀ raw ∈ lines, isBadLine lib raw = false) := by
  intro lines
  induction lines with
  | nil => intro lineNo s; simp [streamLoop, recordsBeforeFirstBad, feed]
  | cons raw rest ih =>
    intro lineNo s
    unfold streamLoop
    by_cases hb : isBlank raw = true
    · have hbad : isBadLine lib raw = false := by simp [isBadLine, hb]
      obtain ⟨ih1, ih2⟩ := ih (lineNo + 1) s
      rw [recordsBeforeFirstBad_cons_blank lib raw rest hb]
      simp only [hb, if_true, ih1, ih2]
      simp [hbad]
    · have hb2 : isBlank raw = false := by simpa using hb
      rcases decode_cases lib lineNo raw with ⟨e, he, e0, he0⟩ | ⟨purchase, hp, hp0⟩
      · have hbad : isBadLine lib raw = true := by simp [isBadLine, hb2, he0]
        rw [recordsBeforeFirstBad_cons_bad lib raw rest hbad]
        simp only [hb2, Bool.false_eq_true, if_false, he]
        simp [feed, hbad]
      · have hbad : isBadLine lib raw = false := by simp [isBadLine, hb2, hp0]
        rw [recordsBeforeFirstBad_cons_good lib raw rest purchase hb2 hp0]
        simp only [hb2, Bool.false_eq_true, if_false, hp]
        cases hcb : onRecord s purchase with
        | mk outcome s1 =>
          cases outcome with
          | some err => simp [feed, hcb]
          | none =>
            obtain ⟨ih1, ih2⟩ := ih (lineNo + 1) s1
            simp only [feed, hcb, ih1, ih2]
            simp [hbad]

/-- Feeding an observed callback: its own state and answers are those of the
callback, and what it notes down are the records handed over. -/
theorem feed_observed {σ : Type} (onRecord : σ → Purchase → Option GoError × σ) :
    ∀ (records : List Purchase) (s : σ) (noted : List Purchase),
      feed (observed onRecord) (s, noted) records =
        (((feed onRecord s records).1, noted ++ handedTo onRecord s records),
          (feed onRecord s records).2) := by
  intro records
  induction records with
  | nil => intro s noted; simp [feed, handedTo]
  | cons purchase rest ih =>
    intro s noted
    cases hcb : onRecord s purchase with
    | mk outcome s1 =>
      cases outcome with
      | some err => simp [feed, handedTo, observed, hcb]
      | none => simp [feed, handedTo, observed, hcb, ih]

theorem handedTo_isPrefix {σ : Type} (onRecord : σ → Purchase → Option GoError × σ) :
    ∀ (records : List Purchase) (s : σ), handedTo onRecord s records <+: records := by
  intro records
  induction records with
  | nil => intro s; simp [handedTo]
  | cons purchase rest ih =>
    intro s
    cases hcb : onRecord s purchase with
    | mk outcome s1 =>
      cases outcome with
      | some err =>
        simp only [handedTo, hcb]
        exact ⟨rest, rfl⟩
      | none =>
        simp only [handedTo, hcb]
        exact (List.prefix_cons_inj purchase).mpr (ih s1)

theorem handedTo_accepting {σ : Type} (onRecord : σ → Purchase → Option GoError × σ)
    (haccept : ∀ st purchase, (onRecord st purchase).1 = none) :
    ∀ (records : List Purchase) (s : σ),
      handedTo onRecord s records = records ∧ (feed onRecord s records).2 = false := by
  intro records
  induction records with
  | nil => intro s; simp [handedTo, feed]
  | cons purchase rest ih =>
    intro s
    cases hcb : onRecord s purchase with
    | mk outcome s1 =>
      have h := haccept s purchase
      rw [hcb] at h
      simp only at h
      subst h
      simp [handedTo, feed, hcb, ih s1]

/-- Up to an element failing the test, `takeWhile` is a `take`. -/
theorem takeWhile_eq_take_of_fails {α : Type} (p : α → Bool) :
    ∀ (l : List α) (k : Nat) (hk : k < l.length), p (l.get ⟨k, hk⟩) = false →
      ∃ j, j ≤ k ∧ l.takeWhile p = l.take j := by
  intro l
  induction l with
  | nil => intro k hk; simp at hk
  | cons a rest ih =>
    intro k hk hfail
    by_cases ha : p a = true
    · cases k with
      | zero => simp [ha] at hfail
      | succ k =>
        have hk2 : k < rest.length := by simpa using hk
        obtain ⟨j, hj, hEq⟩ := ih k hk2 (by simpa using hfail)
        exact ⟨j + 1, by omega, by simp [List.takeWhile, ha, hEq]⟩
    · exact ⟨0, by omega, by simp [List.takeWhile, ha]⟩

theorem filterMap_length_of_all_some {α β : Type} (f : α → Option β) :
    ∀ l : List α, (∀ a ∈ l, f a ≠ none) → (l.filterMap f).length = l.length := by
  intro l
  induction l with
  | nil => intro _; rfl
  | cons a rest ih =>
    intro h
    have ha : f a ≠ none := h a (List.mem_cons_self _ _)
    obtain ⟨b, hb⟩ := Option.ne_none_iff_exists'.mp ha
    rw [List.filterMap_cons_some hb, List.length_cons, List.length_cons,
      ih (fun x hx => h x (List.mem_cons_of_mem _ hx))]

theorem isBadLine_false_of_record (lib : Library) (raw : String)
    (h : recordOf lib raw ≠ none) : isBadLine lib raw = false := by
  unfold recordOf at h
  unfold isBadLine
  by_cases hb : isBlank raw = true
  · simp [hb]
  · have hb2 : isBlank raw = false := by simpa using hb
    simp only [hb2, Bool.false_eq_true, if_false] at h
    cases hd : decode lib 0 raw with
    | error e => simp [hd] at h
    | ok purchase => simp [hb2]

set_option maxRecDepth 100000 in
/-- C10 (counterexample): on a stream of two valid lines, where no line is bad,
a callback that rejects every record makes StreamNDJSON return an error, and
only the first of the two records reaches the callback. -/
theorem StreamNDJSON_rejecting_callback :
    (linesOf validStream).all (fun raw => ! isBadLine sampleLibrary raw) = true ∧
    recordsBeforeFirstBad sampleLibrary (linesOf validStream) =
      [toPurchase sampleInput 1755252000, toPurchase sampleInput 1755252000] ∧
    (StreamNDJSON sampleLibrary validStream (observed rejecting) ((), [])).err =
      some (.callback 1 ErrBadInput) ∧
    (StreamNDJSON sampleLibrary validStream (observed rejecting) ((), [])).state.2 =
      [toPurchase sampleInput 1755252000] :=
  ⟨by rfl, by rfl, by rfl, by rfl⟩

/-- C10 (amended): for every input, every callback and every state the callback
starts in, with the calls on the callback noted down by `observed`:
StreamNDJSON hands to the callback, in line order, the records of the
non-blank lines that precede the first malformed or invalid line, stopping
after the first record the callback rejects, so what reaches the callback is
a leading part of those records; it returns nil exactly when no line is bad
and the callback rejected no record; the callback ends in the state this
feeding gives; with a callback that accepts every record exactly those records
reach it, nil is returned exactly when no line is bad, and when every line
holds a valid record the callback runs once per line; when line `k` is bad an
error is returned and what reached the callback are records of lines before
`k`; the empty input gives no callback and a nil error. -/
theorem StreamNDJSON_delivers_good_lines {σ : Type} (lib : Library) (input : String)
    (onRecord : σ → Purchase → Option GoError × σ) (s : σ) :
    (StreamNDJSON lib input (observed onRecord) (s, [])).state.2 =
      handedTo onRecord s (recordsBeforeFirstBad lib (linesOf input)) ∧
    (StreamNDJSON lib input (observed onRecord) (s, [])).state.2 <+:
      recordsBeforeFirstBad lib (linesOf input) ∧
    ((StreamNDJSON lib input (observed onRecord) (s, [])).err = none ↔
      (∀ raw ∈ linesOf input, isBadLine lib raw = false) ∧
        (feed onRecord s (recordsBeforeFirstBad lib (linesOf input))).2 = false) ∧
    (StreamNDJSON lib input onRecord s).state =
      (feed onRecord s (recordsBeforeFirstBad lib (linesOf input))).1 ∧
    ((∀ st purchase, (onRecord st purchase).1 = none) →
      (StreamNDJSON lib input (observed onRecord) (s, [])).state.2 =
        recordsBeforeFirstBad lib (linesOf input) ∧
      ((StreamNDJSON lib input (observed onRecord) (s, [])).err = none ↔
        ∀ raw ∈ linesOf input, isBadLine lib raw = false) ∧
      ((∀ raw ∈ linesOf input, recordOf lib raw ≠ none) →
        (StreamNDJSON lib input (observed onRecord) (s, [])).err = none ∧
        (StreamNDJSON lib input (observed onRecord) (s, [])).state.2.length =
          (linesOf input).length)) ∧
    (∀ (k : Nat) (hk : k < (linesOf input).length),
      isBadLine lib ((linesOf input).get ⟨k, hk⟩) = true →
      (StreamNDJSON lib input (observed onRecord) (s, [])).err ≠ none ∧
      ∃ j, j ≤ k ∧ (StreamNDJSON lib input (observed onRecord) (s, [])).state.2 <+:
        ((linesOf input).take j).filterMap (recordOf lib)) ∧
    (StreamNDJSON lib "" (observed onRecord) (s, [])).state = (s, []) ∧
    (StreamNDJSON lib "" (observed onRecord) (s, [])).err = none := by
  obtain ⟨hst, herr⟩ := streamLoop_feeds lib (observed onRecord) (linesOf input) 1 (s, [])
  rw [feed_observed] at hst herr
  simp only [List.nil_append] at hst herr
  have hplain := (streamLoop_feeds lib onRecord (linesOf input) 1 s).1
  have hnoted : (StreamNDJSON lib input (observed onRecord) (s, [])).state.2 =
      handedTo onRecord s (recordsBeforeFirstBad lib (linesOf input)) := by
    unfold StreamNDJSON
    rw [hst]
  have hpre := handedTo_isPrefix onRecord (recordsBeforeFirstBad lib (linesOf input)) s
  have herr2 : (StreamNDJSON lib input (observed onRecord) (s, [])).err = none ↔
      (∀ raw ∈ linesOf input, isBadLine lib raw = false) ∧
        (feed onRecord s (recordsBeforeFirstBad lib (linesOf input))).2 = false := by
    unfold StreamNDJSON
    rw [herr]
    exact And.comm
  refine ⟨hnoted, hnoted ▸ hpre, herr2, hplain, ?_, ?_, rfl, rfl⟩
  · intro haccept
    obtain ⟨hall, hrej⟩ := handedTo_accepting onRecord haccept
      (recordsBeforeFirstBad lib (linesOf input)) s
    have hnil : (StreamNDJSON lib input (observed onRecord) (s, [])).err = none ↔
        ∀ raw ∈ linesOf input, isBadLine lib raw = false := by
      rw [herr2]
      exact ⟨fun h => h.1, fun h => ⟨h, hrej⟩⟩
    refine ⟨hnoted.trans hall, hnil, ?_⟩
    intro hvalid
    have hgood : ∀ raw ∈ linesOf input, isBadLine lib raw = false :=
      fun raw hraw => isBadLine_false_of_record lib raw (hvalid raw hraw)
    refine ⟨hnil.mpr hgood, ?_⟩
    rw [hnoted, hall]
    unfold recordsBeforeFirstBad
    have htw : (linesOf input).takeWhile (fun raw => ! isBadLine lib raw) = linesOf input := by
      rw [List.takeWhile_eq_self_iff]
      intro raw hraw
      simp [hgood raw hraw]
    rw [htw]
    exact filterMap_length_of_all_some _ _ hvalid
  · intro k hk hbad
    constructor
    · intro hnone
      have := (herr2.mp hnone).1 _ (List.get_mem _ k hk)
      rw [hbad] at this
      cases this
    · obtain ⟨j, hj, hEq⟩ := takeWhile_eq_take_of_fails (fun raw => ! isBadLine lib raw)
        (linesOf input) k hk
        (by show (! isBadLine lib ((linesOf input).get ⟨k, hk⟩)) = false; rw [hbad]; rfl)
      refine ⟨j, hj, ?_⟩
      rw [hnoted]
      have hG : recordsBeforeFirstBad lib (linesOf input) =
          ((linesOf input).take j).filterMap (recordOf lib) := by
        unfold recordsBeforeFirstBad
        rw [hEq]
      rw [← hG]
      exact hpre

set_option maxRecDepth 100000 in
/-- C10 (amended) at a concrete input, with the callback of the tests: two
valid lines around a blank line, then an invalid line and one more valid line;
two records reach the callback, which has appended both, and the error names
line 4. -/
theorem StreamNDJSON_delivers_good_lines_witness :
    (∀ st purchase, (collect st purchase).1 = none) ∧
    (StreamNDJSON sampleLibrary sampleStream (observed collect) ([], [])).state.2 =
      recordsBeforeFirstBad sampleLibrary (linesOf sampleStream) ∧
    (StreamNDJSON sampleLibrary sampleStream (observed collect) ([], [])).state.2 =
      [toPurchase sampleInput 1755252000, toPurchase sampleInput 1755252000] ∧
    (StreamNDJSON sampleLibrary sampleStream collect []).state =
      [toPurchase sampleInput 1755252000, toPurchase sampleInput 1755252000] ∧
    (StreamNDJSON sampleLibrary sampleStream (observed collect) ([], [])).err =
      some (.decode (.validationError 4 .transactionID)) :=
  ⟨fun _ _ => rfl,
    ((StreamNDJSON_delivers_good_lines sampleLibrary sampleStream collect []).2.2.2.2.1
      (fun _ _ => rfl)).1,
    by rfl, by rfl, by rfl⟩

/-! ## Store, list endpoint and worker pool -/

/-- C11 (code defect): on an empty database `pgStore.AddPurchase` answers
created = false for a purchase whose transaction id is absent, and stores no
row for it; a second call answers the same and still no row is stored. -/
theorem pgStore_AddPurchase_creates_nothing :
    rowsFor [] "TXN-1" = [] ∧
    pgStore.AddPurchase Context.background [] (purchaseWith 0 "TXN-1") = ((false, none), []) ∧
    pgStore.AddPurchase Context.background
      (pgStore.AddPurchase Context.background [] (purchaseWith 0 "TXN-1")).2
      (purchaseWith 0 "TXN-1") = ((false, none), []) ∧
    (rowsFor (pgStore.AddPurchase Context.background
      (pgStore.AddPurchase Context.background [] (purchaseWith 0 "TXN-1")).2
      (purchaseWith 0 "TXN-1")).2 "TXN-1").length = 0 := by
  decide

/-- C12 (code defect): for the limits "0", "101" and "abc" the list handler
replies with status 200 and the empty purchases page, not with status 400. -/
theorem handleListPurchases_accepts_bad_limit :
    handleListPurchases pgStore.asStore ⟨"", "0"⟩ = ⟨200, "application/json", ⟨[], 0⟩⟩ ∧
    handleListPurchases pgStore.asStore ⟨"", "101"⟩ = ⟨200, "application/json", ⟨[], 0⟩⟩ ∧
    handleListPurchases pgStore.asStore ⟨"", "abc"⟩ = ⟨200, "application/json", ⟨[], 0⟩⟩ ∧
    (handleListPurchases pgStore.asStore ⟨"", "0"⟩).status ≠ StatusBadRequest := by
  decide

/-- C13 (code defect): for a pool with one worker over `pgStore`, whose
ClaimBatchForEnrichment fails with an error that is neither a cancellation nor
retryable, Run under a context that is never cancelled returns nil. -/
theorem WorkerPool_Run_returns_nil_on_hard_error :
    (pgStore.ClaimBatchForEnrichment Context.background [] 10).1 =
      ([], some errNotImplemented) ∧
    isCancellation errNotImplemented = false ∧ IsRetryable errNotImplemented = false ∧
    (WorkerPool.Run ⟨1, 10, pgStore.asStore⟩ Context.background []).err = none := by
  decide

/-- C14 (counterexample): when MarkEnriched fails with an error `e` whose
dynamic type is not comparable, the error enrichPurchase returns unwraps to
`e`, yet `errors.Is` does not find `e` in it, since a target that is not
comparable is never matched. -/
theorem enrichPurchase_uncomparable_error :
    (sliceErrStore.MarkEnriched Context.background () 7).1 = some sliceErr ∧
    (WorkerPool.enrichPurchase ⟨1, 10, sliceErrStore⟩ Context.background
      (purchaseWith 7 "TXN-7") ()).err =
      some (.wrapf (.other "failed to mark purchase as enriched") sliceErr) ∧
    (GoError.wrapf (.other "failed to mark purchase as enriched") sliceErr).unwrap =
      some sliceErr ∧
    errorsIs (.wrapf (.other "failed to mark purchase as enriched") sliceErr) sliceErr =
      false := by
  decide

/-- C14 (amended): for every store, context, purchase and store state,
enrichPurchase calls MarkEnriched once, with the identifier of the purchase,
and makes no other call on the store; it leaves the store as that call left
it; it returns nil exactly when the call returns nil; and when the call fails
with `e` the error returned unwraps to `e`, so that `errors.Is` finds `e` in it
whenever `e` is a value that equals itself under `==`. -/
theorem enrichPurchase_marks_once {σ : Type} (store : PurchaseStore σ) (workers batch : Int)
    (ctx : Context) (purchase : Purchase) (s : σ) :
    (WorkerPool.enrichPurchase ⟨workers, batch, store.recorded⟩ ctx purchase (s, [])).store =
      ((store.MarkEnriched ctx s purchase.ID).2, [.markEnriched purchase.ID]) ∧
    ((WorkerPool.enrichPurchase ⟨workers, batch, store⟩ ctx purchase s).err = none ↔
      (store.MarkEnriched ctx s purchase.ID).1 = none) ∧
    (∀ e, (store.MarkEnriched ctx s purchase.ID).1 = some e →
      ∃ result, (WorkerPool.enrichPurchase ⟨workers, batch, store⟩ ctx purchase s).err =
          some result ∧
        result.unwrap = some e ∧ (e.selfEqual = true → errorsIs result e = true)) := by
  refine ⟨?_, ?_, ?_⟩
  · unfold WorkerPool.enrichPurchase PurchaseStore.recorded
    cases h : (store.MarkEnriched ctx s purchase.ID) with
    | mk err s1 => cases err <;> simp [h]
  · unfold WorkerPool.enrichPurchase
    cases h : (store.MarkEnriched ctx s purchase.ID) with
    | mk err s1 => cases err <;> simp
  · intro e he
    unfold WorkerPool.enrichPurchase
    cases h : (store.MarkEnriched ctx s purchase.ID) with
    | mk err s1 =>
      rw [h] at he
      simp only at he
      subst he
      exact ⟨_, rfl, rfl, fun hself => errorsIs_wrapf_inner _ _ hself⟩

/-- C14 (amended) at a concrete input: a store whose MarkEnriched fails with
`ErrNotFound`; the error returned unwraps to `ErrNotFound` and `errors.Is`
finds it. -/
theorem enrichPurchase_marks_once_witness :
    (emptyStore.MarkEnriched Context.background () (purchaseWith 7 "TXN-7").ID).1 =
      some ErrNotFound ∧
    ErrNotFound.selfEqual = true ∧
    ∃ result, (WorkerPool.enrichPurchase ⟨1, 10, emptyStore⟩ Context.background
        (purchaseWith 7 "TXN-7") ()).err = some result ∧
      result.unwrap = some ErrNotFound ∧
      (ErrNotFound.selfEqual = true → errorsIs result ErrNotFound = true) :=
  ⟨rfl, rfl,
    (enrichPurchase_marks_once emptyStore 1 10 Context.background (purchaseWith 7 "TXN-7")
      ()).2.2 ErrNotFound rfl⟩

/-- C15 (code defect): with a store whose MarkEnriched fails with a retryable
error on its first call and would succeed on the next, enrichPurchase returns
that error wrapped after the single call and the purchase is not marked; the
one call it makes on the store is that MarkEnriched, so nothing is persisted
for the loyalty of the player either. -/
theorem enrichPurchase_does_not_retry :
    IsRetryable transientErr = true ∧
    (flakyStore.MarkEnriched Context.background ⟨0, []⟩ 7).1 = some transientErr ∧
    flakyStore.MarkEnriched Context.background ⟨1, []⟩ 7 = (none, ⟨2, [7]⟩) ∧
    (WorkerPool.enrichPurchase ⟨1, 10, flakyStore⟩ Context.background
      (purchaseWith 7 "TXN-7") ⟨0, []⟩).err =
      some (.wrapf (.other "failed to mark purchase as enriched") transientErr) ∧
    (WorkerPool.enrichPurchase ⟨1, 10, flakyStore⟩ Context.background
      (purchaseWith 7 "TXN-7") ⟨0, []⟩).store = ⟨1, []⟩ ∧
    (WorkerPool.enrichPurchase ⟨1, 10, flakyStore.recorded⟩ Context.background
      (purchaseWith 7 "TXN-7") (⟨0, []⟩, [])).store.2 = [.markEnriched 7] := by
  decide

/-- What the code does instead of retrying: enrichPurchase marks the purchase
with one call of MarkEnriched. If that call fails with `e` and leaves the
store in state `s1`, then, whatever a further call would do and whether or not
`e` is retryable, enrichPurchase returns `e` wrapped and leaves the store in
`s1`; if the call succeeds leaving `s1`, enrichPurchase returns nil and leaves
the store in `s1`. -/
theorem enrichPurchase_single_call {σ : Type} (store : PurchaseStore σ) (workers batch : Int)
    (ctx : Context) (purchase : Purchase) (s s1 : σ) (outcome : Option GoError)
    (hcall : store.MarkEnriched ctx s purchase.ID = (outcome, s1)) :
    (WorkerPool.enrichPurchase ⟨workers, batch, store⟩ ctx purchase s).store = s1 ∧
    (WorkerPool.enrichPurchase ⟨workers, batch, store⟩ ctx purchase s).err =
      outcome.map (GoError.wrapf (.other "failed to mark purchase as enriched")) ∧
    (WorkerPool.enrichPurchase ⟨workers, batch, store.recorded⟩ ctx purchase (s, [])).store.2 =
      [.markEnriched purchase.ID] := by
  unfold WorkerPool.enrichPurchase PurchaseStore.recorded
  cases outcome <;> simp [hcall]

/-- The single call at a concrete input: the store failing once with a retryable
error, and the purchase with identifier 7. -/
theorem enrichPurchase_single_call_witness :
    flakyStore.MarkEnriched Context.background ⟨0, []⟩ (purchaseWith 7 "TXN-7").ID =
      (some transientErr, ⟨1, []⟩) ∧
    ((WorkerPool.enrichPurchase ⟨1, 10, flakyStore⟩ Context.background
        (purchaseWith 7 "TXN-7") ⟨0, []⟩).store = ⟨1, []⟩ ∧
      (WorkerPool.enrichPurchase ⟨1, 10, flakyStore⟩ Context.background
        (purchaseWith 7 "TXN-7") ⟨0, []⟩).err =
        (some transientErr).map (GoError.wrapf (.other "failed to mark purchase as enriched")) ∧
      (WorkerPool.enrichPurchase ⟨1, 10, flakyStore.recorded⟩ Context.background
        (purchaseWith 7 "TXN-7") (⟨0, []⟩, [])).store.2 =
        [.markEnriched (purchaseWith 7 "TXN-7").ID]) :=
  ⟨rfl, enrichPurchase_single_call flakyStore 1 10 Context.background
    (purchaseWith 7 "TXN-7") ⟨0, []⟩ ⟨1, []⟩ (some transientErr) rfl⟩

/-- The backoff computation returns exactly when the exponential delay is at
least 4 ns, so that both bounds handed to `rand.Int63n` are positive. -/
theorem calculateBackoffWithJitter_isSome_iff (base attempt : Int) (raw1 raw2 : Nat) :
    (calculateBackoffWithJitter base attempt raw1 raw2).isSome = true ↔
      4 ≤ exponentialOf base attempt := by
  unfold calculateBackoffWithJitter Int63n
  generalize exponentialOf base attempt = E
  simp only
  by_cases h4 : 4 ≤ E
  · have h2 : Int.tdiv E 2 = E / 2 := Int.tdiv_eq_ediv (by omega) (by omega)
    have h4b : Int.tdiv E 4 = E / 4 := Int.tdiv_eq_ediv (by omega) (by omega)
    have hp2 : ¬ E / 2 ≤ 0 := by omega
    have hp4 : ¬ E / 4 ≤ 0 := by omega
    simp [h2, h4b, hp2, hp4, h4]
  · have hq : Int.tdiv E 4 ≤ 0 := by
      by_cases h0 : 0 ≤ E
      · rw [Int.tdiv_eq_ediv h0 (by omega)]; omega
      · have hneg : E < 0 := by omega
        have hnn : 0 ≤ Int.tdiv (-E) 4 := Int.tdiv_nonneg (by omega) (by omega)
        rw [Int.neg_tdiv] at hnn
        omega
    by_cases hp2 : Int.tdiv E 2 ≤ 0
    · simp [hp2, h4]
    · simp [hp2, hq, h4]

/-- C17 (code defect): for the base delay 0 at attempt 1 the exponential delay
is 0 and the bound handed to the first `rand.Int63n` is 0, so the function
panics whatever the generator holds; for the base delay 3 ns the second bound
is 0; for 100 ms at attempt 38 the product has overflowed and the first bound
is negative; and Retry with two attempts and base delay 0 panics after the
first failure of an operation that always fails. -/
theorem calculateBackoffWithJitter_panics :
    exponentialOf 0 1 = 0 ∧ Int.tdiv (exponentialOf 0 1) 2 = 0 ∧
    Int63n 0 0 = none ∧
    calculateBackoffWithJitter 0 1 0 0 = none ∧
    Int.tdiv (exponentialOf 3 1) 4 = 0 ∧ calculateBackoffWithJitter 3 1 0 0 = none ∧
    Int.tdiv (exponentialOf (100 * Millisecond) 38) 2 < 0 ∧
    calculateBackoffWithJitter (100 * Millisecond) 38 0 0 = none ∧
    Retry 0 (liveEnv (alwaysFails ErrBadInput) zeroDraws) 2 0 = some ⟨.panicked, 1⟩ := by
  decide

/-! ## The data generator -/

theorem getD_mem_of_lt {α : Type} (l : List α) (i : Nat) (dflt : α) (h : i < l.length) :
    l.getD i dflt ∈ l := by
  rw [List.getD_eq_getElem _ _ h]
  exact List.getElem_mem _

theorem append_ne_empty_of_left (a b : String) (ha : a ≠ "") : a ++ b ≠ "" := by
  intro h
  apply ha
  have hd : (a ++ b).data = [] := by rw [h]
  rw [String.data_append] at hd
  have ha2 : a.data = [] := (List.append_eq_nil.mp hd).1
  exact String.ext ha2

theorem Generator.priceFor_nonneg (itemType : String) (raw : Nat) :
    0 ≤ Generator.priceFor itemType raw := by
  unfold Generator.priceFor
  split_ifs <;> omega

theorem Generator.platformPrefixes_ne_empty (platform : String)
    (h : platform ∈ Generator.platforms) : Generator.platformPrefixes platform ≠ "" := by
  simp only [Generator.platforms, List.mem_cons, List.mem_singleton, List.not_mem_nil,
    or_false] at h
  rcases h with rfl | rfl | rfl | rfl | rfl | rfl <;> decide

/-- A player id chosen by `generatePurchase` is not empty when no id of the pool is. -/
theorem Generator.choosePlayer_id_ne_empty (playerPool usernamePool : List String)
    (transactionCounter : Nat) (d : Generator.PurchaseDraws)
    (hpool : ∀ id ∈ playerPool, id ≠ "") :
    (Generator.choosePlayer playerPool usernamePool transactionCounter d).1 ≠ "" := by
  unfold Generator.choosePlayer
  split
  · rename_i h
    simp only [Bool.and_eq_true, decide_eq_true_eq] at h
    exact hpool _ (getD_mem_of_lt _ _ _ (Nat.mod_lt _ h.2))
  · apply append_ne_empty_of_left
    apply Generator.platformPrefixes_ne_empty
    exact getD_mem_of_lt _ _ _ (Nat.mod_lt _ (by decide))

/-- What `generatePurchase` itself guarantees, whatever the draws: item type and
platform in their tables, an amount that is not negative, a level from 1 to 99
and a transaction id that is not empty. -/
theorem Generator.generatePurchase_in_domain (playerPool usernamePool : List String)
    (formatTime : Int → String) (transactionCounter : Nat) (baseTime : Int)
    (d : Generator.PurchaseDraws) :
    (Generator.generatePurchase playerPool usernamePool formatTime transactionCounter
        baseTime d).ItemType ∈ Generator.itemTypes ∧
    (Generator.generatePurchase playerPool usernamePool formatTime transactionCounter
        baseTime d).Platform ∈ Generator.platforms ∧
    0 ≤ (Generator.generatePurchase playerPool usernamePool formatTime transactionCounter
        baseTime d).AmountCents ∧
    1 ≤ (Generator.generatePurchase playerPool usernamePool formatTime transactionCounter
        baseTime d).PlayerLevel ∧
    (Generator.generatePurchase playerPool usernamePool formatTime transactionCounter
        baseTime d).PlayerLevel ≤ 99 ∧
    (Generator.generatePurchase playerPool usernamePool formatTime transactionCounter
        baseTime d).TransactionID ≠ "" := by
  unfold Generator.generatePurchase
  simp only
  refine ⟨getD_mem_of_lt _ _ _ (Nat.mod_lt _ (by decide)),
    getD_mem_of_lt _ _ _ (Nat.mod_lt _ (by decide)), Generator.priceFor_nonneg _ _, ?_, ?_,
    append_ne_empty_of_left _ _ (by decide)⟩
  · omega
  · have : d.level % 99 < 99 := Nat.mod_lt _ (by decide)
    unfold Generator.Intn
    omega

/-- What the loop of `main` guarantees for the record it writes: the level lies
between 1 and 102, and between 1 and 99 off the duplicate path; the amount is
not negative; item type and platform are in their tables. -/
theorem Generator.mainLoopRecord_bounds (playerPool usernamePool : List String)
    (formatTime : Int → String) (i : Nat) (baseTime : Int)
    (d : Generator.PurchaseDraws) (dup : Generator.DuplicateDraws) :
    1 ≤ (Generator.mainLoopRecord playerPool usernamePool formatTime i baseTime d
        dup).PlayerLevel ∧
    (Generator.mainLoopRecord playerPool usernamePool formatTime i baseTime d
        dup).PlayerLevel ≤ 102 ∧
    ((decide (i > 0) && dup.duplicate) = false →
      (Generator.mainLoopRecord playerPool usernamePool formatTime i baseTime d
        dup).PlayerLevel ≤ 99) ∧
    0 ≤ (Generator.mainLoopRecord playerPool usernamePool formatTime i baseTime d
        dup).AmountCents ∧
    (Generator.mainLoopRecord playerPool usernamePool formatTime i baseTime d
        dup).ItemType ∈ Generator.itemTypes ∧
    (Generator.mainLoopRecord playerPool usernamePool formatTime i baseTime d
        dup).Platform ∈ Generator.platforms := by
  obtain ⟨h1, h2, h3, h4, h5, _⟩ := Generator.generatePurchase_in_domain playerPool
    usernamePool formatTime (i + 1) baseTime d
  have hl : dup.levelUp % 3 < 3 := Nat.mod_lt _ (by decide)
  unfold Generator.mainLoopRecord
  simp only
  cases hd : (decide (i > 0) && dup.duplicate)
  · simp only [Bool.false_eq_true, if_false]
    exact ⟨h4, by omega, fun _ => h5, h3, h1, h2⟩
  · simp only [if_true, Generator.Intn]
    exact ⟨by omega, by omega, fun h => Bool.noConfusion h, by omega, h1, h2⟩

/-- C16 (code defect): on the duplicate path the level is raised past 100. With
the level draw 98 `generatePurchase` gives level 99; in iteration 1 of the loop
of `main`, the duplicate path taken and the level-up draw 2, the record written
has player_level 102, which the validation of the ingestor rejects. -/
theorem Generator_writes_level_above_100 :
    (Generator.generatePurchase ["steam_76561198000000001"] ["Gamersteam12"]
      Generator.sampleFormat 2 1755252000 Generator.topLevelDraws).PlayerLevel = 99 ∧
    (Generator.mainLoopRecord ["steam_76561198000000001"] ["Gamersteam12"]
      Generator.sampleFormat 1 1755252000 Generator.topLevelDraws
      Generator.levelUpDraws).PlayerLevel = 102 ∧
    (Generator.mainLoopRecord ["steam_76561198000000001"] ["Gamersteam12"]
      Generator.sampleFormat 1 1755252000 Generator.topLevelDraws
      Generator.levelUpDraws).TransactionID = "TXN-GEN-000001" ∧
    sampleLibrary.parseTimestamp (Generator.sampleFormat 1755252000) = some 1755252000 ∧
    ValidatePurchaseInput sampleLibrary
      (Generator.mainLoopRecord ["steam_76561198000000001"] ["Gamersteam12"]
        Generator.sampleFormat 1 1755252000 Generator.topLevelDraws
        Generator.levelUpDraws).toInput = some .playerLevel := by
  decide


end Gotest
